import Mathlib

/-!
# Jarvis assistant (`src/AssistantPerso.js`): conversational interpreter and calendar gateway

A shallow embedding of the decision logic of the React component `AssistantPerso`:
`handleSend`, `addGoogleEvent`, `fetchGoogleEvents`, the voice `onresult` handler, the
proposal handlers `approveProposal` and `modifyProposal`, and the clock helper `digital`.

Conventions of the embedding.

* React state is an explicit record `State`; an async handler is a function from the
  state at the call to the state once the handler has settled, together with the ordered
  list of the effects it issued (`Effect`).
* What the browser decides (network outcomes, the clock, `JSON.parse`, string conversion
  of non-string values) is a field of `World`; theorems quantify over every `World`.
* JavaScript values are `JSValue`; strings are sequences of Unicode scalar values.
* An operation that can throw returns `Option`, `none` standing for the thrown exception.
-/

namespace Jarvis

/-! ## JavaScript values -/

/-- A JSON number literal, kept exactly: the decimal value `(-1)^neg * mant * 10^exp`
before it is rounded to a double. -/
structure JSNumber where
  neg : Bool
  mant : Nat
  exp : Int
  deriving Repr

/-- The double nearest to the literal is `+0` or `-0`: either the digits are all zero, or
the magnitude is at most `2^-1075`, half of the least subnormal (a tie rounds to even). -/
def JSNumber.isZero (n : JSNumber) : Bool :=
  n.mant == 0 || (n.exp < 0 && decide (n.mant * 2 ^ 1075 ≤ 10 ^ n.exp.natAbs))

/-- A JavaScript value as this program meets them: what `JSON.parse` and `res.json()`
produce, and `undefined` for an absent property. An object keeps its members in source
order. -/
inductive JSValue where
  | undefined
  | null
  | bool (b : Bool)
  | num (n : JSNumber)
  | str (s : String)
  | arr (xs : List JSValue)
  | obj (members : List (String × JSValue))

/-- JavaScript truthiness (`ToBoolean`). -/
def JSValue.truthy : JSValue → Bool
  | .undefined => false
  | .null => false
  | .bool b => b
  | .num n => !n.isZero
  | .str s => !s.data.isEmpty
  | .arr _ => true
  | .obj _ => true

/-- The value bound to `key` among the members of an object; a repeated key takes its
last value. -/
def lookupMember (key : String) : List (String × JSValue) → JSValue
  | [] => .undefined
  | (k, v) :: rest =>
    if rest.any (fun kv => kv.1 == key) then lookupMember key rest
    else if k == key then v else .undefined

/-- Property read `v.key`, for the property names this program reads (`action`, `title`,
`date`, `time`, `choices`, `message`, `content`, `items`, `start`, `dateTime`, `summary`),
none of which a built-in prototype defines. `none` is the `TypeError` of reading a
property of `undefined` or `null`. -/
def JSValue.getProp (v : JSValue) (key : String) : Option JSValue :=
  match v with
  | .undefined => none
  | .null => none
  | .obj members => some (lookupMember key members)
  | _ => some .undefined

/-- Optional property read `v?.key`. -/
def JSValue.optProp (v : JSValue) (key : String) : JSValue :=
  match v.getProp key with
  | some r => r
  | none => .undefined

/-- Optional index read `v?.[0]`. -/
def JSValue.optIndex0 : JSValue → JSValue
  | .arr (x :: _) => x
  | .obj members => lookupMember "0" members
  | .str s =>
    match s.data with
    | c :: _ => .str (String.mk [c])
    | [] => .undefined
  | _ => .undefined

/-- Strict equality `v === s` with a string. -/
def JSValue.strictEqStr (v : JSValue) (s : String) : Bool :=
  match v with
  | .str t => t == s
  | _ => false

/-! ## Strings -/

/-- The characters `String.prototype.trim` strips: ECMAScript `WhiteSpace` and
`LineTerminator`. -/
def isJSWhitespace (c : Char) : Bool :=
  let n := c.toNat
  n == 0x09 || n == 0x0A || n == 0x0B || n == 0x0C || n == 0x0D || n == 0x20 ||
  n == 0xA0 || n == 0x1680 || (0x2000 ≤ n && n ≤ 0x200A) || n == 0x2028 || n == 0x2029 ||
  n == 0x202F || n == 0x205F || n == 0x3000 || n == 0xFEFF

/-- `String.prototype.trim` on the characters of a string. -/
def trimChars (cs : List Char) : List Char :=
  ((cs.dropWhile isJSWhitespace).reverse.dropWhile isJSWhitespace).reverse

/-- `String.prototype.trim`. -/
def jsTrim (s : String) : String := String.mk (trimChars s.data)

/-- `hay.includes(needle)` on characters. -/
def includesChars (needle : List Char) : List Char → Bool
  | [] => needle.isEmpty
  | c :: cs => needle.isPrefixOf (c :: cs) || includesChars needle cs

/-- `s.startsWith("{")`. -/
def startsWithBrace (s : String) : Bool :=
  match s.data with
  | c :: _ => c == '{'
  | [] => false

/-- `s.includes('"action"')`. -/
def includesActionKey (s : String) : Bool :=
  includesChars "\"action\"".data s.data

/-! ## `JSON.parse`

A reference decoder for the JSON grammar (ECMA-404), used where a theorem evaluates the
program on a concrete reply. The program itself is embedded over an arbitrary decoder
(`World.JSONparse`). -/

namespace Json

/-- JSON insignificant whitespace. -/
def isWs (c : Char) : Bool :=
  c == ' ' || c == '\t' || c == '\n' || c == '\r'

/-- Drop leading JSON whitespace. -/
def skipWs (cs : List Char) : List Char := cs.dropWhile isWs

/-- Value of a hexadecimal digit. -/
def hexVal (c : Char) : Option Nat :=
  let n := c.toNat
  if 48 ≤ n ∧ n ≤ 57 then some (n - 48)
  else if 65 ≤ n ∧ n ≤ 70 then some (n - 55)
  else if 97 ≤ n ∧ n ≤ 102 then some (n - 87)
  else none

/-- The code unit written by the four hexadecimal digits of a `\\u` escape. -/
def hex4 (a b c d : Char) : Option Nat :=
  match hexVal a, hexVal b, hexVal c, hexVal d with
  | some x, some y, some z, some w => some (((x * 16 + y) * 16 + z) * 16 + w)
  | _, _, _, _ => none

/-- The body of a string literal after its opening quote: the code points it denotes
(an escape may denote a surrogate code unit) and the input after the closing quote. -/
def stringBody : List Char → List Nat → Option (List Nat × List Char)
  | [], _ => none
  | '"' :: rest, acc => some (acc.reverse, rest)
  | '\\' :: 'u' :: a :: b :: c :: d :: rest, acc =>
    match hex4 a b c d with
    | some u => stringBody rest (u :: acc)
    | none => none
  | '\\' :: e :: rest, acc =>
    if e == '"' then stringBody rest (34 :: acc)
    else if e == '\\' then stringBody rest (92 :: acc)
    else if e == '/' then stringBody rest (47 :: acc)
    else if e == 'b' then stringBody rest (8 :: acc)
    else if e == 'f' then stringBody rest (12 :: acc)
    else if e == 'n' then stringBody rest (10 :: acc)
    else if e == 'r' then stringBody rest (13 :: acc)
    else if e == 't' then stringBody rest (9 :: acc)
    else none
  | '\\' :: [], _ => none
  | c :: rest, acc => if c.toNat < 32 then none else stringBody rest (c.toNat :: acc)

/-- Code points to characters: a surrogate pair is one character; a lone surrogate, which
a sequence of scalar values cannot hold, is kept as U+FFFD. -/
def fromCodeUnits : List Nat → List Char
  | [] => []
  | [u] => [if 0xD800 ≤ u ∧ u ≤ 0xDFFF then Char.ofNat 0xFFFD else Char.ofNat u]
  | h :: l :: rest =>
    if 0xD800 ≤ h ∧ h ≤ 0xDBFF ∧ 0xDC00 ≤ l ∧ l ≤ 0xDFFF then
      Char.ofNat (0x10000 + (h - 0xD800) * 0x400 + (l - 0xDC00)) :: fromCodeUnits rest
    else
      (if 0xD800 ≤ h ∧ h ≤ 0xDFFF then Char.ofNat 0xFFFD else Char.ofNat h) ::
        fromCodeUnits (l :: rest)

/-- A string literal after its opening quote. -/
def stringLit (cs : List Char) : Option (String × List Char) :=
  match stringBody cs [] with
  | some (units, rest) => some (String.mk (fromCodeUnits units), rest)
  | none => none

/-- The number written by a run of decimal digits. -/
def digitsVal (ds : List Char) : Nat :=
  ds.foldl (fun n c => n * 10 + (c.toNat - 48)) 0

/-- The integer part of a number: `0`, or a non-zero digit followed by digits. -/
def intPart : List Char → Option (List Char × List Char)
  | '0' :: rest => some (['0'], rest)
  | c :: rest =>
    if c.isDigit then some (c :: rest.takeWhile Char.isDigit, rest.dropWhile Char.isDigit)
    else none
  | [] => none

/-- The optional fraction of a number: `.` followed by at least one digit. -/
def fracPart : List Char → Option (List Char × List Char)
  | '.' :: rest =>
    match rest.takeWhile Char.isDigit with
    | [] => none
    | ds => some (ds, rest.dropWhile Char.isDigit)
  | cs => some ([], cs)

/-- The digits of an exponent: at least one. -/
def expDigits (cs : List Char) : Option (Nat × List Char) :=
  match cs.takeWhile Char.isDigit with
  | [] => none
  | ds => some (digitsVal ds, cs.dropWhile Char.isDigit)

/-- The optional exponent of a number. -/
def expPart : List Char → Option (Int × List Char)
  | c :: rest =>
    if c == 'e' || c == 'E' then
      match rest with
      | '-' :: rest2 => (expDigits rest2).map (fun p => (-(p.1 : Int), p.2))
      | '+' :: rest2 => (expDigits rest2).map (fun p => ((p.1 : Int), p.2))
      | _ => (expDigits rest).map (fun p => ((p.1 : Int), p.2))
    else some (0, c :: rest)
  | [] => some (0, [])

/-- A number literal. -/
def number (cs : List Char) : Option (JSNumber × List Char) :=
  let (neg, cs1) := match cs with
    | '-' :: rest => (true, rest)
    | _ => (false, cs)
  match intPart cs1 with
  | none => none
  | some (ip, cs2) =>
    match fracPart cs2 with
    | none => none
    | some (fp, cs3) =>
      match expPart cs3 with
      | none => none
      | some (e, cs4) =>
        some ({ neg := neg, mant := digitsVal (ip ++ fp), exp := e - fp.length }, cs4)

mutual

/-- A JSON value, leading whitespace allowed. -/
def value : Nat → List Char → Option (JSValue × List Char)
  | 0, _ => none
  | fuel + 1, cs =>
    match skipWs cs with
    | '{' :: rest =>
      match skipWs rest with
      | '}' :: rest2 => some (.obj [], rest2)
      | _ => (members fuel rest []).map (fun p => (.obj p.1, p.2))
    | '[' :: rest =>
      match skipWs rest with
      | ']' :: rest2 => some (.arr [], rest2)
      | _ => (elements fuel rest []).map (fun p => (.arr p.1, p.2))
    | '"' :: rest => (stringLit rest).map (fun p => (.str p.1, p.2))
    | 't' :: 'r' :: 'u' :: 'e' :: rest => some (.bool true, rest)
    | 'f' :: 'a' :: 'l' :: 's' :: 'e' :: rest => some (.bool false, rest)
    | 'n' :: 'u' :: 'l' :: 'l' :: rest => some (.null, rest)
    | cs1 => (number cs1).map (fun p => (.num p.1, p.2))

/-- The elements of an array after `[`, up to and including `]`. -/
def elements : Nat → List Char → List JSValue → Option (List JSValue × List Char)
  | 0, _, _ => none
  | fuel + 1, cs, acc =>
    match value fuel cs with
    | none => none
    | some (v, rest) =>
      match skipWs rest with
      | ',' :: rest2 => elements fuel rest2 (v :: acc)
      | ']' :: rest2 => some ((v :: acc).reverse, rest2)
      | _ => none

/-- The members of an object after `{`, up to and including `}`. -/
def members : Nat → List Char → List (String × JSValue) →
    Option (List (String × JSValue) × List Char)
  | 0, _, _ => none
  | fuel + 1, cs, acc =>
    match skipWs cs with
    | '"' :: rest =>
      match stringLit rest with
      | none => none
      | some (k, rest1) =>
        match skipWs rest1 with
        | ':' :: rest2 =>
          match value fuel rest2 with
          | none => none
          | some (v, rest3) =>
            match skipWs rest3 with
            | ',' :: rest4 => members fuel rest4 ((k, v) :: acc)
            | '}' :: rest4 => some (((k, v) :: acc).reverse, rest4)
            | _ => none
        | _ => none
    | _ => none

end

end Json

/-- The decoder `JSON.parse`: the whole text is one JSON value; `none` is the
`SyntaxError`. -/
def jsonParse (s : String) : Option JSValue :=
  match Json.value (2 * s.data.length + 2) s.data with
  | some (v, rest) => if (Json.skipWs rest).isEmpty then some v else none
  | none => none

/-! ## Data model -/

/-- The `from` field of a transcript entry. -/
inductive Sender where
  | user
  | assistant
  deriving DecidableEq, Repr

/-- A transcript entry `{ from, text }`. -/
structure Message where
  sender : Sender
  text : String
  deriving DecidableEq, Repr

/-- An entry of the local calendar snapshot `{ date, time, title }`. The fields are the
JavaScript values the program stores there. -/
structure CalendarEvent where
  date : JSValue
  time : JSValue
  title : JSValue

/-- The `calendar` block of a proposal. -/
structure ProposalCalendar where
  date : String
  time : String
  title : String
  deriving DecidableEq, Repr

/-- The pending proposal. -/
structure Proposal where
  type : String
  title : String
  items : List String
  calendar : Option ProposalCalendar
  notes : String
  deriving DecidableEq, Repr

/-- An entry `{ jour, theme }` of the plan list. -/
structure PlanEntry where
  jour : String
  theme : String
  deriving DecidableEq, Repr

/-- The React state of the component that the modelled handlers read or write. -/
structure State where
  messages : List Message
  input : String
  loading : Bool
  events : List CalendarEvent
  quickToast : Option String
  apiKey : String
  googleToken : Option String
  model : String
  assistantName : String
  ideas : List String
  karatePlan : List PlanEntry
  showProposal : Bool
  proposal : Proposal

/-- Outcome of a request whose response body is read with `res.json()`. -/
inductive JsonResponse where
  | throws
  | undecodable
  | body (data : JSValue)

/-- Outcome of the event-creation request: the request throws, the response is `ok`, or it
is not `ok` and its error body does or does not decode. -/
inductive CreateResponse where
  | throws
  | ok
  | rejected (bodyDecodes : Bool)
  deriving DecidableEq, Repr

/-- What the browser and the network decide during one run of a handler. -/
structure World where
  /-- The built-in `JSON.parse`; `none` is a thrown `SyntaxError`. -/
  JSONparse : String → Option JSValue
  /-- String conversion of a value that is not a string, as a template literal does it.
  A conversion that throws (an object whose own `toString` is not callable) is not
  modelled. -/
  ToString : JSValue → String
  /-- String conversion of `n + 1` for an integer `n` that `parseInt` returned and that
  lies outside the range where doubles are exact. -/
  bigPlusOne : Int → String
  /-- The result of `today.toISOString().split("T")[0]`. -/
  todayStr : String
  /-- The same for the next day. -/
  tomorrowStr : String
  /-- The result of `today.toLocaleDateString("fr-CA", ...)`. -/
  todayLong : String
  /-- The window `timeMin`, `timeMax` of a list request. -/
  listWindow : String × String
  /-- Outcome of the chat-completion request. -/
  modelResponse : JsonResponse
  /-- Outcome of the event-creation request. -/
  createResponse : CreateResponse
  /-- Outcome of the event-list request. -/
  listResponse : JsonResponse

/-- A `{ dateTime, timeZone }` pair of a calendar request. -/
structure EventTime where
  dateTime : String
  timeZone : String
  deriving DecidableEq, Repr

/-- The body of an event-creation request: `{ summary, start, end }`. -/
structure GoogleEvent where
  summary : JSValue
  start : EventTime
  finish : EventTime

/-- An effect a handler issues, in the order the handler issues them. -/
inductive Effect where
  /-- A `setMessages` call appending `m`. -/
  | setMessages (m : Message)
  /-- The POST to the chat-completion endpoint. -/
  | modelRequest (apiKey model system user : String)
  /-- The POST creating a calendar event. -/
  | createRequest (token : String) (event : GoogleEvent)
  /-- The GET listing calendar events. -/
  | listRequest (token timeMin timeMax : String)
  /-- A `speak` call. -/
  | speak (text : String)

/-- String conversion of a value inside a template literal. -/
def jsStr (w : World) : JSValue → String
  | .str s => s
  | v => w.ToString v

/-- JavaScript truthiness of the `googleToken` state (a string or `null`): the token when
it is truthy. -/
def liveToken : Option String → Option String
  | some t => if t.data.isEmpty then none else some t
  | none => none

/-! ## Intent parsing (`handleSend`, lines 356-378) -/

/-- The two ways `handleSend` treats a model reply. -/
inductive ModelReply where
  | FreeText (text : String)
  | CalendarAction (title date time : JSValue)

/-- The decision of `handleSend` on `botReply`: the calendar branch is taken when the reply
starts with `{`, includes `"action"`, decodes, and the decoded value has
`action === "add_event"` with truthy `title` and `date`; the third argument is
`parsed.time || "00:00"`. An exception inside the `try` is caught and the reply falls
through to the free-text branch. -/
def classify (parse : String → Option JSValue) (botReply : String) : ModelReply :=
  if startsWithBrace botReply && includesActionKey botReply then
    match parse botReply with
    | none => .FreeText botReply
    | some parsed =>
      match parsed.getProp "action", parsed.getProp "title", parsed.getProp "date",
          parsed.getProp "time" with
      | some action, some title, some date, some time =>
        if action.strictEqStr "add_event" && title.truthy && date.truthy then
          .CalendarAction title date (if time.truthy then time else .str "00:00")
        else .FreeText botReply
      | _, _, _, _ => .FreeText botReply
  else .FreeText botReply

/-- The text `botReply` of `handleSend`:
`data?.choices?.[0]?.message?.content?.trim() || "Je n’ai pas compris ta demande."`.
`none` is the `TypeError` of calling `trim` on a content that is not a string. -/
def botReplyOf (data : JSValue) : Option String :=
  match (((data.optProp "choices").optIndex0).optProp "message").optProp "content" with
  | .undefined => some "Je n’ai pas compris ta demande."
  | .null => some "Je n’ai pas compris ta demande."
  | .str content =>
    if (jsTrim content).data.isEmpty then some "Je n’ai pas compris ta demande."
    else some (jsTrim content)
  | _ => none

/-! ## Calendar gateway -/

/-- The first component of `s.split(sep)`. -/
def splitFirst (sep : Char) (cs : List Char) : List Char :=
  cs.takeWhile (fun c => c != sep)

/-- The second component of `s.split(sep)`, `none` when `s` has no `sep`. -/
def splitSecond (sep : Char) (cs : List Char) : Option (List Char) :=
  match cs.dropWhile (fun c => c != sep) with
  | [] => none
  | _ :: rest => some (rest.takeWhile (fun c => c != sep))

/-- The value of a digit in radix 16 or less, as `parseInt` reads it. -/
def radixDigit (radix : Nat) (c : Char) : Option Nat :=
  match Json.hexVal c with
  | some d => if d < radix then some d else none
  | none => none

/-- The digits `parseInt` consumes in the given radix: the longest run of valid digits. -/
def leadingDigits (radix : Nat) : List Char → List Nat
  | [] => []
  | c :: cs =>
    match radixDigit radix c with
    | some d => d :: leadingDigits radix cs
    | none => []

/-- The magnitude `parseInt` reads after the sign: radix 16 after a `0x` or `0X`,
radix 10 otherwise; `none` is `NaN` (no digit). -/
def parseMagnitude (cs : List Char) : Option Nat :=
  let radix : Nat := match cs with
    | '0' :: 'x' :: _ => 16
    | '0' :: 'X' :: _ => 16
    | _ => 10
  let body := if radix = 16 then cs.drop 2 else cs
  match leadingDigits radix body with
  | [] => none
  | ds => some (ds.foldl (fun n d => n * radix + d) 0)

/-- The built-in `parseInt(s)` with no radix argument, as a mathematical integer; `none`
is `NaN`. -/
def parseInt (s : List Char) : Option Int :=
  match s.dropWhile isJSWhitespace with
  | '-' :: rest => (parseMagnitude rest).map (fun n => -(n : Int))
  | '+' :: rest => (parseMagnitude rest).map (fun n => (n : Int))
  | rest => (parseMagnitude rest).map (fun n => (n : Int))

/-- The text of `parseInt(time.split(":")[0]) + 1` inside the template literal. -/
def hourPlusOne (w : World) (time : String) : String :=
  match parseInt (splitFirst ':' time.data) with
  | none => "NaN"
  | some n => if n.natAbs < 2 ^ 53 then toString (n + 1) else w.bigPlusOne n

/-- The `end.dateTime` of `addGoogleEvent`:
`${date}T${time ? `${parseInt(time.split(":")[0]) + 1}:00` : "23:59"}:00`.
`none` is the `TypeError` of calling `split` on a truthy `time` that is not a string. -/
def endDateTime (w : World) (date time : JSValue) : Option String :=
  if time.truthy then
    match time with
    | .str t => some (jsStr w date ++ "T" ++ (hourPlusOne w t ++ ":00") ++ ":00")
    | _ => none
  else some (jsStr w date ++ "T" ++ "23:59" ++ ":00")

/-- The `event` object `addGoogleEvent` builds; `none` when building it throws. -/
def buildEvent (w : World) (title date time : JSValue) : Option GoogleEvent :=
  match endDateTime w date time with
  | none => none
  | some e => some
    { summary := title
      start := { dateTime := jsStr w date ++ "T" ++ jsStr w time ++ ":00",
                 timeZone := "America/Toronto" }
      finish := { dateTime := e, timeZone := "America/Toronto" } }

/-- The call `s.slice(0, n)`, which counts UTF-16 code units: a character outside the
basic plane counts for two. When the cut falls inside such a character the result ends
with its high surrogate alone, which a sequence of scalar values cannot hold and which is
kept as U+FFFD. -/
def sliceUnits : Nat → List Char → List Char
  | 0, _ => []
  | _, [] => []
  | n + 1, c :: cs =>
    if c.toNat < 0x10000 then c :: sliceUnits n cs
    else
      match n with
      | 0 => [Char.ofNat 0xFFFD]
      | m + 1 => c :: sliceUnits m cs

/-- One element of `data.items` mapped to the local shape; `none` when the mapping
function throws. -/
def formatItem (item : JSValue) : Option CalendarEvent :=
  match item.getProp "start" with
  | none => none
  | some start =>
    match start.getProp "dateTime" with
    | none => none
    | some dateTime =>
      let title := if (item.optProp "summary").truthy then item.optProp "summary"
        else .str "(Sans titre)"
      match dateTime with
      | .undefined => some { date := start.optProp "date", time := .str "", title := title }
      | .null => some { date := start.optProp "date", time := .str "", title := title }
      | .str dt =>
        let date := if (splitFirst 'T' dt.data).isEmpty then start.optProp "date"
          else .str (String.mk (splitFirst 'T' dt.data))
        if dt.data.isEmpty then some { date := date, time := .str "", title := title }
        else
          match splitSecond 'T' dt.data with
          | none => none
          | some t =>
            some { date := date, time := .str (String.mk (sliceUnits 5 t)), title := title }
      | _ => none

/-- The call `data.items.map(...)` on an array: `none` when one element throws. -/
def formatItems : List JSValue → Option (List CalendarEvent)
  | [] => some []
  | item :: rest =>
    match formatItem item, formatItems rest with
    | some e, some es => some (e :: es)
    | _, _ => none

/-- The handler `fetchGoogleEvents`: the state once it has settled and the requests it
issued. The timers that later clear the toast are not part of the model. -/
def fetchGoogleEvents (w : World) (s : State) : State × List Effect :=
  match liveToken s.googleToken with
  | none => ({ s with quickToast := some "Connecte-toi à Google d'abord" }, [])
  | some token =>
    let req := [Effect.listRequest token w.listWindow.1 w.listWindow.2]
    let failed : State := { s with quickToast := some "Erreur Google Calendar" }
    match w.listResponse with
    | .throws => (failed, req)
    | .undecodable => (failed, req)
    | .body data =>
      match data.getProp "items" with
      | none => (failed, req)
      | some items =>
        if items.truthy then
          match items with
          | .arr xs =>
            match formatItems xs with
            | none => (failed, req)
            | some formatted =>
              ({ s with events := formatted,
                        quickToast := some ("📅 " ++ toString formatted.length ++
                          " événements chargés") }, req)
          | _ => (failed, req)
        else ({ s with quickToast := some "Aucun événement trouvé" }, req)

/-- The handler `addGoogleEvent(title, date, time)`: the state once it has settled and the
requests it issued. It never throws. After an `ok` response it starts
`fetchGoogleEvents`, whose settled state is composed here: the refresh writes only
`events` and `quickToast`. -/
def addGoogleEvent (w : World) (title date time : JSValue) (s : State) :
    State × List Effect :=
  match liveToken s.googleToken with
  | none => ({ s with quickToast := some "Connecte-toi à Google d'abord" }, [])
  | some token =>
    match buildEvent w title date time with
    | none => ({ s with quickToast := some "Erreur connexion Google" }, [])
    | some event =>
      let req := [Effect.createRequest token event]
      match w.createResponse with
      | .throws => ({ s with quickToast := some "Erreur connexion Google" }, req)
      | .ok =>
        let r := fetchGoogleEvents w { s with quickToast := some "✅ Événement ajouté au calendrier" }
        (r.1, req ++ r.2)
      | .rejected true => ({ s with quickToast := some "Erreur lors de l’ajout" }, req)
      | .rejected false => ({ s with quickToast := some "Erreur connexion Google" }, req)

/-! ## Dialogue orchestrator -/

/-- The summary of the known events of one day in the prompt:
`events.filter(e => e.date === day).map(e => `${e.time} → ${e.title}`).join("; ") || none`. -/
def dayList (w : World) (events : List CalendarEvent) (day nonePhrase : String) : String :=
  let joined := "; ".intercalate
    ((events.filter (fun e => e.date.strictEqStr day)).map
      (fun e => jsStr w e.time ++ " → " ++ jsStr w e.title))
  if joined.data.isEmpty then nonePhrase else joined

/-- The `system` message of the request payload. -/
def systemPrompt (w : World) (events : List CalendarEvent) : String :=
  "Tu es Jarvis, assistant personnel francophone relié à Google Calendar.\n" ++
  "            Nous sommes le " ++ w.todayLong ++ ".\n" ++
  "            Voici les événements connus :\n" ++
  "            • Aujourd’hui : " ++
    dayList w events w.todayStr "aucun événement aujourd’hui" ++ "\n" ++
  "            • Demain : " ++ dayList w events w.tomorrowStr "aucun événement demain" ++ "\n" ++
  "  \n" ++
  "            Si l’utilisateur te demande d’ajouter un événement,\n" ++
  "            tu dois répondre uniquement sous forme JSON à la ligne suivante :\n" ++
  "            \x7b\"action\":\"add_event\",\"title\":\"Titre\",\"date\":\"YYYY-MM-DD\",\"time\":\"HH:MM\"\x7d\n" ++
  "            Sinon, réponds normalement en texte."

/-- The notice appended when no API key is configured. -/
def noKeyNotice : Message :=
  { sender := .assistant,
    text := "⚠️ Pas de clé API configurée. Renseigne-la dans les paramètres." }

/-- The interim message announcing the creation. -/
def announcement (w : World) (title date time : JSValue) : Message :=
  { sender := .assistant,
    text := "🗓️ Ajout de l’événement « " ++ jsStr w title ++ " » le " ++ jsStr w date ++
      " à " ++ jsStr w time ++ "..." }

/-- The message appended after `addGoogleEvent` has settled. -/
def confirmation : Message :=
  { sender := .assistant, text := "✅ Événement ajouté à ton Google Calendar !" }

/-- The constant `userText` of `handleSend`: `typeof text === "string" ? text : input`. -/
def userText (text : Option String) (input : String) : String :=
  match text with
  | some t => t
  | none => input

/-- The guard `!userText || !userText.trim()` of `handleSend`. -/
def isBlank (u : String) : Bool :=
  u.data.isEmpty || (jsTrim u).data.isEmpty

/-- An effect is the chat-completion request. -/
def Effect.isModelRequest : Effect → Bool
  | .modelRequest _ _ _ _ => true
  | _ => false

/-- An effect is a request to the calendar service. -/
def Effect.isCalendarRequest : Effect → Bool
  | .createRequest _ _ => true
  | .listRequest _ _ _ => true
  | _ => false

/-- The handler `handleSend(text)`: the state once it has settled and the effects it
issued, in order. `text` is `none` when the argument is not a string (a click event, or
no argument), in which case the `input` state is sent. -/
def handleSend (w : World) (text : Option String) (s : State) : State × List Effect :=
  let u := userText text s.input
  if isBlank u then (s, [])
  else
    let userMsg : Message := { sender := .user, text := u }
    let s1 : State :=
      { s with input := "", messages := s.messages ++ [userMsg], loading := true }
    if s.apiKey.data.isEmpty then
      ({ s1 with messages := s1.messages ++ [noKeyNotice], loading := false },
        [.setMessages userMsg, .setMessages noKeyNotice])
    else
      let req := Effect.modelRequest s.apiKey s.model (systemPrompt w s.events) u
      let caught : State × List Effect :=
        ({ s1 with loading := false }, [.setMessages userMsg, req])
      match w.modelResponse with
      | .throws => caught
      | .undecodable => caught
      | .body data =>
        match botReplyOf data with
        | none => caught
        | some botReply =>
          match classify w.JSONparse botReply with
          | .CalendarAction title date time =>
            let s2 : State :=
              { s1 with messages := s1.messages ++ [announcement w title date time] }
            let r := addGoogleEvent w title date time s2
            ({ r.1 with messages := r.1.messages ++ [confirmation], loading := false },
              [.setMessages userMsg, req, .setMessages (announcement w title date time)] ++
                r.2 ++ [.setMessages confirmation, .speak "Événement ajouté à ton agenda."])
          | .FreeText _ =>
            ({ s1 with messages := s1.messages ++ [{ sender := .assistant, text := botReply }],
                       loading := false },
              [.setMessages userMsg, req,
                .setMessages { sender := .assistant, text := botReply }, .speak botReply])

/-- The voice handler `rec.onresult` for a recognised `transcript`. -/
def onresult (w : World) (transcript : String) (s : State) : State × List Effect :=
  let heard : Message := { sender := .user, text := transcript }
  let r := handleSend w (some transcript)
    { s with input := transcript, messages := s.messages ++ [heard] }
  (r.1, [.setMessages heard, .speak (s.assistantName ++ " a bien reçu.")] ++ r.2)

/-! ## Concrete states and worlds -/

/-- The state the component starts in (the `useState` initial values), given what
`localStorage` holds and the date of the day. -/
def initialState (assistantName apiKey : String) (googleToken : Option String)
    (today : String) : State :=
  { messages := [{ sender := .assistant,
                   text := "Bonjour 👋 Je suis " ++ assistantName ++
                     ". Que veux-tu organiser aujourd'hui ?" }]
    input := ""
    loading := false
    events := []
    quickToast := none
    apiKey := apiKey
    googleToken := googleToken
    model := "gpt-4.1-mini"
    assistantName := assistantName
    ideas := []
    karatePlan := []
    showProposal := false
    proposal :=
      { type := "karate"
        title := "Cycle Kicks & Cardio (45 min)"
        items := ["Échauffement (10min): corde + mobilité hanches",
                  "Technique (15min): Mae Geri / Yoko Geri – 5 x 10 reps par jambe",
                  "Puissance (10min): enchaînements 1-2-3 coups, chrono 30/30",
                  "Finisher (10min): Tabata squats + burpees"]
        calendar := some { date := today, time := "19:00",
                           title := "Entraînement Karaté – Kicks" }
        notes := "Objectif: précision + explosivité; RPE 7-8." } }

/-- String conversion for the concrete runs: exact on `undefined`, `null`, booleans,
strings, plain objects and the empty array; a number or a non-empty array, whose text
needs the double-to-decimal algorithm, is not converted by any run evaluated below and
gets a placeholder. -/
def refToString : JSValue → String
  | .undefined => "undefined"
  | .null => "null"
  | .bool true => "true"
  | .bool false => "false"
  | .str s => s
  | .obj _ => "[object Object]"
  | .arr [] => ""
  | _ => "?"

/-- A run on 28 February 2025 with the given outcomes of the model call and of the
event-creation call; the list call fails. -/
def demoWorld (modelResponse : JsonResponse) (createResponse : CreateResponse) : World :=
  { JSONparse := jsonParse
    ToString := refToString
    bigPlusOne := fun _ => "?"
    todayStr := "2025-02-28"
    tomorrowStr := "2025-03-01"
    todayLong := "vendredi 28 février 2025"
    listWindow := ("2025-02-28T14:00:00.000Z", "2025-03-02T14:00:00.000Z")
    modelResponse := modelResponse
    createResponse := createResponse
    listResponse := .throws }

/-- A chat-completion response body whose first choice carries `content`. -/
def completionBody (content : String) : JSValue :=
  .obj [("id", .str "gen-1"),
        ("choices", .arr [.obj [("message",
          .obj [("role", .str "assistant"), ("content", .str content)])]])]

/-- The number of chat-completion requests in a list of effects. -/
def modelCalls (trace : List Effect) : Nat :=
  (trace.filter Effect.isModelRequest).length

/-- The number of calendar requests in a list of effects. -/
def calendarCalls (trace : List Effect) : Nat :=
  (trace.filter Effect.isCalendarRequest).length

/-- The starting state on 28 February 2025 with an API key and no Google token. -/
def keyOnlyState : State := initialState "Senseï" "sk-demo" none "2025-02-28"

/-- The same state while an earlier submit is still in flight. -/
def busyState : State := { keyOnlyState with loading := true }

/-- The starting state with neither an API key nor a Google token. -/
def bareState : State := initialState "Senseï" "" none "2025-02-28"

/-- The starting state with an API key and a Google token. -/
def connectedState : State :=
  initialState "Senseï" "sk-demo" (some "ya29.demo") "2025-02-28"

/-- The `start.dateTime` and `end.dateTime` of the event-creation requests among a list of
effects, in order. -/
def createdSpans : List Effect → List (String × String)
  | [] => []
  | .createRequest _ event :: rest =>
    (event.start.dateTime, event.finish.dateTime) :: createdSpans rest
  | _ :: rest => createdSpans rest

/-- The time zones of the event-creation requests among a list of effects, in order. -/
def createdZones : List Effect → List (String × String)
  | [] => []
  | .createRequest _ event :: rest =>
    (event.start.timeZone, event.finish.timeZone) :: createdZones rest
  | _ :: rest => createdZones rest

/-- The structured reply of the model to a request for an appointment. -/
def appointmentReply : String :=
  "\x7b\"action\":\"add_event\",\"title\":\"Rendez-vous\",\"date\":\"2025-03-01\",\"time\":\"09:00\"\x7d"

/-! ## Proposal engine -/

/-- The quick action `Proposer un entraînement` (line 750): it shows the proposal the
state holds and speaks; it does not write `proposal`. -/
def openProposal (s : State) : State × List Effect :=
  ({ s with showProposal := true }, [.speak "Proposition d'entraînement prête."])

/-- The close button and the `Annuler` button of the modal (lines 889 and 902). -/
def discardProposal (s : State) : State :=
  { s with showProposal := false }

/-- The handler `modifyProposal`. -/
def modifyProposal (s : State) : State :=
  { s with proposal := { s.proposal with title := s.proposal.title ++ " (modifié)" }
           quickToast := some "Proposition modifiée ✏️" }

/-- The plan list and the idea list after the first branch of `approveProposal`: a
proposal of type `karate` appends `{ jour: proposal.calendar.date, theme: proposal.title }`
to the plan list, one of type `idea` appends `{ text: proposal.title }` to the idea list.
The handler only queues the updater `(prev) => [...prev, { jour: ..., theme: ... }]`;
`none` is the `TypeError` the updater raises when React applies it and it reads `date` of
an absent `calendar` block, after which the component has no settled state. -/
def approvedLists (s : State) : Option (List PlanEntry × List String) :=
  if s.proposal.type == "karate" then
    match s.proposal.calendar with
    | some c => some (s.karatePlan ++ [{ jour := c.date, theme := s.proposal.title }], s.ideas)
    | none => none
  else if s.proposal.type == "idea" then
    some (s.karatePlan, s.ideas ++ [s.proposal.title])
  else some (s.karatePlan, s.ideas)

/-- The snapshot after the second branch of `approveProposal`: with a Google token and a
`calendar` block, the proposed event is appended. -/
def approvedEvents (s : State) : List CalendarEvent :=
  match liveToken s.googleToken, s.proposal.calendar with
  | some _, some c =>
    s.events ++ [{ date := .str c.date, time := .str c.time, title := .str c.title }]
  | _, _ => s.events

/-- The handler `approveProposal`: the state once the updates it queued are applied, and
the effects it issued, which are none. `none` is the `TypeError` of `approvedLists`, raised
when the queued plan updater is applied. -/
def approveProposal (s : State) : Option (State × List Effect) :=
  match approvedLists s with
  | none => none
  | some lists =>
    some ({ s with karatePlan := lists.1, ideas := lists.2, events := approvedEvents s,
                   showProposal := false, quickToast := some "Proposition validée ✅" }, [])

/-! ## Clock -/

/-- The local-time fields of a valid `Date`, as its getters return them: `getFullYear`,
`getMonth` (0 to 11), `getDate`, `getHours`, `getMinutes`, `getSeconds`. -/
structure DateParts where
  fullYear : Int
  month : Fin 12
  date : Fin 32
  hours : Fin 24
  minutes : Fin 60
  seconds : Fin 60

/-- The helper `pad`: `String(n).padStart(2, "0")`. -/
def pad (n : Nat) : String :=
  String.mk (List.replicate (2 - (toString n).data.length) '0' ++ (toString n).data)

/-- The helper `digital`: `${Y}-${M}-${D}  ${h}:${m}:${s}`. -/
def digital (d : DateParts) : String :=
  toString d.fullYear ++ "-" ++ pad (d.month.val + 1) ++ "-" ++ pad d.date.val ++ "  " ++
    pad d.hours.val ++ ":" ++ pad d.minutes.val ++ ":" ++ pad d.seconds.val

/-- The class `\d` of a regular expression. -/
def isAsciiDigit (c : Char) : Bool :=
  48 ≤ c.toNat && c.toNat ≤ 57

/-- The self test `digitalFormat`:
`/^\d{4}-\d{2}-\d{2}\s\s\d{2}:\d{2}:\d{2}$/.test(text)`. -/
def digitalFormat (text : String) : Bool :=
  match text.data with
  | [y1, y2, y3, y4, a, m1, m2, b, d1, d2, s1, s2, h1, h2, c, n1, n2, e, t1, t2] =>
    isAsciiDigit y1 && isAsciiDigit y2 && isAsciiDigit y3 && isAsciiDigit y4 &&
    a == '-' && isAsciiDigit m1 && isAsciiDigit m2 && b == '-' &&
    isAsciiDigit d1 && isAsciiDigit d2 && isJSWhitespace s1 && isJSWhitespace s2 &&
    isAsciiDigit h1 && isAsciiDigit h2 && c == ':' && isAsciiDigit n1 && isAsciiDigit n2 &&
    e == ':' && isAsciiDigit t1 && isAsciiDigit t2
  | _ => false

/-- A text is two decimal digits. -/
def twoDigits (cs : List Char) : Bool :=
  match cs with
  | [a, b] => isAsciiDigit a && isAsciiDigit b
  | _ => false

/-- A text is four decimal digits. -/
def fourDigits (cs : List Char) : Bool :=
  match cs with
  | [a, b, c, d] => isAsciiDigit a && isAsciiDigit b && isAsciiDigit c && isAsciiDigit d
  | _ => false

/-! ## Shapes of the list response -/

/-- The local event the specification gives an item of the list response. The title is
the `summary`, or the placeholder `(Sans titre)` when the summary is missing or empty
(falsy). A timed item has a `start.dateTime` of the form `<date>T<HH:MM><rest>`: its date
is `<date>` and its time `<HH:MM>`. An all-day item has no `start.dateTime`: its date is
`start.date` and it has no time, which the program writes as the empty string. -/
def ItemMapsTo (item : JSValue) (e : CalendarEvent) : Prop :=
  ∃ start, item.getProp "start" = some start ∧
    (((item.optProp "summary").truthy = true ∧ e.title = item.optProp "summary") ∨
     ((item.optProp "summary").truthy = false ∧ e.title = .str "(Sans titre)")) ∧
    ((∃ (day : List Char) (h1 h2 m1 m2 : Char) (rest : List Char),
        start.getProp "dateTime" =
          some (.str (String.mk (day ++ 'T' :: h1 :: h2 :: ':' :: m1 :: m2 :: rest))) ∧
        day ≠ [] ∧ 'T' ∉ day ∧
        isAsciiDigit h1 = true ∧ isAsciiDigit h2 = true ∧
        isAsciiDigit m1 = true ∧ isAsciiDigit m2 = true ∧
        e.date = .str (String.mk day) ∧ e.time = .str (String.mk [h1, h2, ':', m1, m2])) ∨
     (start.getProp "dateTime" = some .undefined ∧
        e.date = start.optProp "date" ∧ e.time = .str ""))

/-- A list response with one timed item, one all-day item and one item without summary. -/
def sampleItems : List JSValue :=
  [.obj [("summary", .str "Réunion"),
         ("start", .obj [("dateTime", .str "2025-03-01T09:30:00-05:00")])],
   .obj [("summary", .str "Congé"), ("start", .obj [("date", .str "2025-03-02")])],
   .obj [("start", .obj [("dateTime", .str "2025-03-02T18:00:00-05:00")])]]

/-- A world whose list call answers with `sampleItems`. -/
def listWorld : World :=
  { demoWorld .throws .ok with listResponse := .body (.obj [("items", .arr sampleItems)]) }

/-- A proposal of type `karate` that has no `calendar` block. -/
def planWithoutCalendar : Proposal :=
  { type := "karate", title := "Cycle Kicks & Cardio (45 min)",
    items := ["Finisher (10min): Tabata squats + burpees"], calendar := none, notes := "" }

/-- A snapshot with two events on 28 February 2025 and one on the next day. -/
def sampleSnapshot : List CalendarEvent :=
  [{ date := .str "2025-02-28", time := .str "09:30", title := .str "Réunion" },
   { date := .str "2025-03-01", time := .str "", title := .str "Congé" },
   { date := .str "2025-02-28", time := .str "18:00", title := .str "Karaté" }]

/-- A list response with one item that has no `start`. -/
def malformedListWorld : World :=
  { demoWorld .throws .ok with
    listResponse := .body (.obj [("items", .arr [.obj [("summary", .str "Réunion")]])]) }

/-- The connected starting state holding `sampleSnapshot`. -/
def loadedState : State := { connectedState with events := sampleSnapshot }

/-- The starting state with an API key, holding `sampleSnapshot`. -/
def briefedState : State := { keyOnlyState with events := sampleSnapshot }

/-! ## The day summary in the specification's words -/

/-- The entries `time → title` of exactly the events whose date is `day`, in snapshot
order. -/
def summaryEntries (w : World) (day : String) : List CalendarEvent → List String
  | [] => []
  | e :: rest =>
    match e.date with
    | .str d =>
      if d = day then (jsStr w e.time ++ " → " ++ jsStr w e.title) :: summaryEntries w day rest
      else summaryEntries w day rest
    | _ => summaryEntries w day rest

/-- Entries joined by `; `. -/
def joinEntries : List String → String
  | [] => ""
  | [x] => x
  | x :: y :: rest => x ++ "; " ++ joinEntries (y :: rest)

/-- The summary of a day: the none phrase when no event has the date of the day, and
otherwise the joined entries of the events of that day. -/
def daySummary (w : World) (events : List CalendarEvent) (day nonePhrase : String) : String :=
  match summaryEntries w day events with
  | [] => nonePhrase
  | entries => joinEntries entries

/-! ## Reachable states -/

/-- The states the component can reach: it starts in `initialState`, and every handler
takes a reachable state to a reachable state. `proposal` is written by `modifyProposal`
only (`setProposal` occurs nowhere else); every other write of the component (typing in
the input, the settings, the toasts, the quick actions, the timers) leaves it as it is. -/
inductive Reachable : State → Prop
  | start (assistantName apiKey : String) (googleToken : Option String) (today : String) :
      Reachable (initialState assistantName apiKey googleToken today)
  | send (w : World) (text : Option String) {s : State} :
      Reachable s → Reachable (handleSend w text s).1
  | voice (w : World) (transcript : String) {s : State} :
      Reachable s → Reachable (onresult w transcript s).1
  | list (w : World) {s : State} : Reachable s → Reachable (fetchGoogleEvents w s).1
  | opened {s : State} : Reachable s → Reachable (openProposal s).1
  | discarded {s : State} : Reachable s → Reachable (discardProposal s)
  | modified {s : State} : Reachable s → Reachable (modifyProposal s)
  | approved {s : State} {r : State × List Effect} :
      Reachable s → approveProposal s = some r → Reachable r.1
  | other {s t : State} : Reachable s → t.proposal = s.proposal → Reachable t

/-! ## Lemmas -/

/-- A value strictly equal to a string is that string. -/
theorem strictEqStr_eq {v : JSValue} {s : String} (h : v.strictEqStr s = true) :
    v = .str s := by
  cases v <;> simp [JSValue.strictEqStr] at h
  simp [h]

/-- A truthy value is present. -/
theorem truthy_ne_undefined {v : JSValue} (h : v.truthy = true) : v ≠ .undefined := by
  intro e
  subst e
  simp [JSValue.truthy] at h

/-- The decision of `classify`, case by case: free text carrying the reply itself, or the
calendar branch with every condition of the guard met. -/
theorem classify_cases (parse : String → Option JSValue) (reply : String) :
    classify parse reply = .FreeText reply ∨
    ∃ members, startsWithBrace reply = true ∧ includesActionKey reply = true ∧
      parse reply = some (.obj members) ∧
      lookupMember "action" members = .str "add_event" ∧
      (lookupMember "title" members).truthy = true ∧
      (lookupMember "date" members).truthy = true ∧
      classify parse reply = .CalendarAction (lookupMember "title" members)
        (lookupMember "date" members)
        (if (lookupMember "time" members).truthy then lookupMember "time" members
          else .str "00:00") := by
  unfold classify
  by_cases hg : (startsWithBrace reply && includesActionKey reply) = true
  · rw [if_pos hg]
    simp only [Bool.and_eq_true] at hg
    cases hp : parse reply with
    | none => left; rfl
    | some parsed =>
      cases parsed with
      | obj members =>
        simp only [JSValue.getProp]
        by_cases hc : ((lookupMember "action" members).strictEqStr "add_event" &&
            (lookupMember "title" members).truthy && (lookupMember "date" members).truthy) = true
        · right
          refine ⟨members, hg.1, hg.2, rfl, ?_⟩
          rw [if_pos hc]
          simp only [Bool.and_eq_true] at hc
          exact ⟨strictEqStr_eq hc.1.1, hc.1.2, hc.2, rfl⟩
        · left; rw [if_neg hc]
      | undefined => left; rfl
      | null => left; rfl
      | bool b => left; simp [JSValue.getProp, JSValue.strictEqStr]
      | num b => left; simp [JSValue.getProp, JSValue.strictEqStr]
      | str b => left; simp [JSValue.getProp, JSValue.strictEqStr]
      | arr b => left; simp [JSValue.getProp, JSValue.strictEqStr]
  · left; rw [if_neg hg]

/-- Conversely, when every condition of the guard is met the calendar branch is taken. -/
theorem classify_of_guard (parse : String → Option JSValue) (reply : String)
    (members : List (String × JSValue))
    (h1 : startsWithBrace reply = true) (h2 : includesActionKey reply = true)
    (hp : parse reply = some (.obj members))
    (ha : lookupMember "action" members = .str "add_event")
    (ht : (lookupMember "title" members).truthy = true)
    (hd : (lookupMember "date" members).truthy = true) :
    classify parse reply = .CalendarAction (lookupMember "title" members)
      (lookupMember "date" members)
      (if (lookupMember "time" members).truthy then lookupMember "time" members
        else .str "00:00") := by
  unfold classify
  simp [h1, h2, hp, JSValue.getProp, ha, ht, hd, JSValue.strictEqStr]

/-- A string of whitespace only trims to the empty string. -/
theorem trimChars_of_all_whitespace (cs : List Char)
    (h : ∀ c ∈ cs, isJSWhitespace c = true) : trimChars cs = [] := by
  have h1 : cs.dropWhile isJSWhitespace = [] := by
    rw [List.dropWhile_eq_nil_iff]
    exact h
  simp [trimChars, h1]

/-- An utterance of whitespace only is rejected by the guard. -/
theorem isBlank_of_all_whitespace (u : String)
    (h : ∀ c ∈ u.data, isJSWhitespace c = true) : isBlank u = true := by
  simp [isBlank, jsTrim, trimChars_of_all_whitespace u.data h]

/-- The refresh writes `events` and `quickToast` only. -/
theorem fetchGoogleEvents_frame (w : World) (s : State) :
    (fetchGoogleEvents w s).1.messages = s.messages ∧
    (fetchGoogleEvents w s).1.loading = s.loading ∧
    (fetchGoogleEvents w s).1.input = s.input := by
  unfold fetchGoogleEvents
  repeat' split
  all_goals exact ⟨rfl, rfl, rfl⟩

/-- The creation handler never writes the transcript, the input or the loading flag. -/
theorem addGoogleEvent_frame (w : World) (title date time : JSValue) (s : State) :
    (addGoogleEvent w title date time s).1.messages = s.messages ∧
    (addGoogleEvent w title date time s).1.loading = s.loading ∧
    (addGoogleEvent w title date time s).1.input = s.input := by
  unfold addGoogleEvent
  repeat' split
  all_goals first
    | exact ⟨rfl, rfl, rfl⟩
    | exact fetchGoogleEvents_frame w _

/-! ## Intent parsing: claims C1 and C2 -/

/-- C1. The reply classification of `handleSend` is total: every reply gives either
`FreeText` of the reply itself or a `CalendarAction`, never both; a decoding failure gives
`FreeText` of the reply; a `CalendarAction` arises only when the reply decodes to an object
whose `action` is `"add_event"` and whose `title` and `date` are present, and it carries
the decoded title and date and the decoded time, or `"00:00"` when the time is missing.
The two replies of the specification evaluate as it says. -/
theorem classify_total_sound :
    (∀ (parse : String → Option JSValue) (reply : String),
      (classify parse reply = .FreeText reply ∨
        ∃ title date time, classify parse reply = .CalendarAction title date time) ∧
      ¬ (classify parse reply = .FreeText reply ∧
        ∃ title date time, classify parse reply = .CalendarAction title date time)) ∧
    (∀ (parse : String → Option JSValue) (reply : String),
      parse reply = none → classify parse reply = .FreeText reply) ∧
    (∀ (parse : String → Option JSValue) (reply : String) (title date time : JSValue),
      classify parse reply = .CalendarAction title date time →
      ∃ members, parse reply = some (.obj members) ∧
        lookupMember "action" members = .str "add_event" ∧
        title = lookupMember "title" members ∧ title ≠ .undefined ∧
        date = lookupMember "date" members ∧ date ≠ .undefined ∧
        time = (if (lookupMember "time" members).truthy then lookupMember "time" members
          else .str "00:00") ∧
        (lookupMember "time" members = .undefined → time = .str "00:00")) ∧
    classify jsonParse
        "\x7b\"action\":\"add_event\",\"title\":\"Dentiste\",\"date\":\"2025-03-01\"\x7d" =
      .CalendarAction (.str "Dentiste") (.str "2025-03-01") (.str "00:00") ∧
    classify jsonParse "\x7b\"action\":\"add_event\",\"title\":\"Dentiste\"\x7d" =
      .FreeText "\x7b\"action\":\"add_event\",\"title\":\"Dentiste\"\x7d" := by
  refine ⟨?_, ?_, ?_, rfl, rfl⟩
  · intro parse reply
    constructor
    · rcases classify_cases parse reply with h | ⟨m, _, _, _, _, _, _, h⟩
      · exact Or.inl h
      · exact Or.inr ⟨_, _, _, h⟩
    · rintro ⟨h1, t, d, tm, h2⟩
      rw [h1] at h2
      cases h2
  · intro parse reply hp
    rcases classify_cases parse reply with h | ⟨m, _, _, hm, _⟩
    · exact h
    · rw [hp] at hm
      cases hm
  · intro parse reply title date time h
    rcases classify_cases parse reply with h1 | ⟨m, _, _, hm, ha, ht, hd, hc⟩
    · rw [h1] at h
      cases h
    · rw [hc] at h
      injection h with e1 e2 e3
      subst e1 e2
      refine ⟨m, hm, ha, rfl, truthy_ne_undefined ht, rfl, truthy_ne_undefined hd, e3.symm, ?_⟩
      · intro hu
        rw [← e3, hu]
        simp [JSValue.truthy]

/-- C2, counterexample. The reply `{"title":"Dentiste","date":"2025-03-01"}` decodes to an
object with `title` and `date` present, yet it is classified as free text: it declares
no `action`. -/
theorem title_date_without_action_is_free_text :
    jsonParse "\x7b\"title\":\"Dentiste\",\"date\":\"2025-03-01\"\x7d" =
      some (.obj [("title", .str "Dentiste"), ("date", .str "2025-03-01")]) ∧
    lookupMember "title" [("title", .str "Dentiste"), ("date", .str "2025-03-01")] =
      .str "Dentiste" ∧
    lookupMember "date" [("title", .str "Dentiste"), ("date", .str "2025-03-01")] =
      .str "2025-03-01" ∧
    classify jsonParse "\x7b\"title\":\"Dentiste\",\"date\":\"2025-03-01\"\x7d" =
      .FreeText "\x7b\"title\":\"Dentiste\",\"date\":\"2025-03-01\"\x7d" :=
  ⟨rfl, rfl, rfl, rfl⟩

/-- C2, amended. A reply takes the calendar branch if and only if it starts with `{`,
includes `"action"`, decodes to an object whose `action` is `"add_event"` and whose `title`
and `date` are truthy; every other reply takes the free-text branch with the reply
itself. -/
theorem classify_calendar_iff (parse : String → Option JSValue) (reply : String) :
    ((∃ title date time, classify parse reply = .CalendarAction title date time) ↔
      (startsWithBrace reply = true ∧ includesActionKey reply = true ∧
        ∃ members, parse reply = some (.obj members) ∧
          lookupMember "action" members = .str "add_event" ∧
          (lookupMember "title" members).truthy = true ∧
          (lookupMember "date" members).truthy = true)) ∧
    ((¬ ∃ title date time, classify parse reply = .CalendarAction title date time) →
      classify parse reply = .FreeText reply) := by
  constructor
  · constructor
    · rintro ⟨t, d, tm, h⟩
      rcases classify_cases parse reply with h1 | ⟨m, hs, hi, hm, ha, ht, hd, _⟩
      · rw [h1] at h
        cases h
      · exact ⟨hs, hi, m, hm, ha, ht, hd⟩
    · rintro ⟨hs, hi, m, hm, ha, ht, hd⟩
      exact ⟨_, _, _, classify_of_guard parse reply m hs hi hm ha ht hd⟩
  · intro hn
    rcases classify_cases parse reply with h1 | ⟨m, _, _, _, _, _, _, hc⟩
    · exact h1
    · exact absurd ⟨_, _, _, hc⟩ hn

/-! ## Orchestrator: claims C3 to C7 -/

/-- The guard of `handleSend` rejects exactly the utterances made of whitespace only. -/
theorem isBlank_iff (u : String) :
    isBlank u = true ↔ ∀ c ∈ u.data, isJSWhitespace c = true := by
  constructor
  · intro h
    simp only [isBlank, jsTrim, Bool.or_eq_true, List.isEmpty_iff] at h
    have hd : u.data.dropWhile isJSWhitespace = [] := by
      rcases h with h | h
      · simp [h]
      · simp only [trimChars, List.reverse_eq_nil_iff, List.dropWhile_eq_nil_iff,
          List.mem_reverse] at h
        cases hcs : u.data.dropWhile isJSWhitespace with
        | nil => rfl
        | cons a rest =>
          have ha : isJSWhitespace a = true := h a (by rw [hcs]; simp)
          have hna := List.head_dropWhile_not isJSWhitespace u.data (by rw [hcs]; simp)
          simp [hcs, ha] at hna
    rwa [List.dropWhile_eq_nil_iff] at hd
  · exact isBlank_of_all_whitespace u

/-- A rejected submit changes nothing and issues nothing. -/
theorem handleSend_blank (w : World) (text : Option String) (s : State)
    (hb : isBlank (userText text s.input) = true) : handleSend w text s = (s, []) := by
  unfold handleSend
  simp [hb]

/-- An accepted submit first appends the user message, whatever follows, and ends with
`loading` false. -/
theorem handleSend_user_first (w : World) (text : Option String) (s : State)
    (hb : isBlank (userText text s.input) = false) :
    (s.messages ++ [{ sender := .user, text := userText text s.input }]) <+:
      (handleSend w text s).1.messages ∧
    (handleSend w text s).2.head? =
      some (.setMessages { sender := .user, text := userText text s.input }) ∧
    (handleSend w text s).1.loading = false := by
  unfold handleSend
  simp only [hb, Bool.false_eq_true, if_false]
  repeat' split
  all_goals simp [(addGoogleEvent_frame w _ _ _ _).1]

/-- Counting model requests distributes over concatenation. -/
theorem modelCalls_append (a b : List Effect) :
    modelCalls (a ++ b) = modelCalls a + modelCalls b := by
  simp [modelCalls]

/-- Counting calendar requests distributes over concatenation. -/
theorem calendarCalls_append (a b : List Effect) :
    calendarCalls (a ++ b) = calendarCalls a + calendarCalls b := by
  simp [calendarCalls]

/-- The refresh issues no chat-completion request. -/
theorem fetchGoogleEvents_modelCalls (w : World) (s : State) :
    modelCalls (fetchGoogleEvents w s).2 = 0 := by
  unfold fetchGoogleEvents
  repeat' split
  all_goals rfl

/-- The creation handler issues no chat-completion request. -/
theorem addGoogleEvent_modelCalls (w : World) (title date time : JSValue) (s : State) :
    modelCalls (addGoogleEvent w title date time s).2 = 0 := by
  unfold addGoogleEvent
  repeat' split
  all_goals first
    | rfl
    | simpa [modelCalls, Effect.isModelRequest] using fetchGoogleEvents_modelCalls w _

/-- C3, counterexample. The utterance `" "` is not empty, yet submitting it leaves the
transcript as it was and issues no effect. -/
theorem space_utterance_is_dropped :
    " " ≠ "" ∧
    (handleSend (demoWorld (.body (completionBody "Bonjour !")) .ok) (some " ")
      keyOnlyState).1.messages = keyOnlyState.messages ∧
    (handleSend (demoWorld (.body (completionBody "Bonjour !")) .ok) (some " ")
      keyOnlyState).2.length = 0 :=
  ⟨by decide, rfl, rfl⟩

/-- C3, amended. For every utterance that is not blank (it has a character that is not
whitespace), `handleSend` grows the transcript by a User message carrying the utterance,
possibly followed by more, and that append is the first effect issued, so it precedes any
model call. -/
theorem submit_records_user_message_first (w : World) (text : Option String) (s : State)
    (hb : ∃ c ∈ (userText text s.input).data, isJSWhitespace c = false) :
    ∃ (rest : List Message) (later : List Effect),
      (handleSend w text s).1.messages =
        s.messages ++ { sender := .user, text := userText text s.input } :: rest ∧
      (handleSend w text s).2 =
        .setMessages { sender := .user, text := userText text s.input } :: later := by
  have hb2 : isBlank (userText text s.input) = false := by
    rcases hb with ⟨c, hc, hw⟩
    cases hq : isBlank (userText text s.input) with
    | false => rfl
    | true =>
      have := (isBlank_iff _).1 hq c hc
      rw [this] at hw
      cases hw
  obtain ⟨⟨rest, hr⟩, hh, _⟩ := handleSend_user_first w text s hb2
  refine ⟨rest, (handleSend w text s).2.tail, ?_, ?_⟩
  · rw [← hr]
    simp
  · cases ht : (handleSend w text s).2 with
    | nil => rw [ht] at hh; cases hh
    | cons e es =>
      rw [ht] at hh
      simp only [List.head?_cons, Option.some.injEq] at hh
      simp [hh]

/-- C3, witness: the utterance `"salut"` in the starting state. -/
theorem submit_records_user_message_first_witness :
    ∃ (rest : List Message) (later : List Effect),
      (handleSend (demoWorld .throws .ok) (some "salut") keyOnlyState).1.messages =
        keyOnlyState.messages ++ { sender := .user, text := "salut" } :: rest ∧
      (handleSend (demoWorld .throws .ok) (some "salut") keyOnlyState).2 =
        .setMessages { sender := .user, text := "salut" } :: later :=
  submit_records_user_message_first (demoWorld .throws .ok) (some "salut") keyOnlyState
    ⟨'s', by decide, by decide⟩

/-- C4. For every utterance that is empty or made of whitespace only, `handleSend` is a
no-op: the whole state (transcript, snapshot, input, loading) is unchanged and no effect,
hence no model call, is issued. -/
theorem blank_submit_is_noop (w : World) (text : Option String) (s : State)
    (hb : ∀ c ∈ (userText text s.input).data, isJSWhitespace c = true) :
    handleSend w text s = (s, []) ∧
    (handleSend w text s).1.messages = s.messages ∧
    (handleSend w text s).1.events = s.events ∧
    (handleSend w text s).1.input = s.input ∧
    (handleSend w text s).1.loading = s.loading ∧
    modelCalls (handleSend w text s).2 = 0 := by
  have h := handleSend_blank w text s ((isBlank_iff _).2 hb)
  rw [h]
  exact ⟨rfl, rfl, rfl, rfl, rfl, rfl⟩

/-- C4, witness: the utterance of a space, a tab and a line feed. -/
theorem blank_submit_is_noop_witness :
    handleSend (demoWorld .throws .ok) (some " \t\n") keyOnlyState = (keyOnlyState, []) :=
  (blank_submit_is_noop (demoWorld .throws .ok) (some " \t\n") keyOnlyState
    (by decide)).1

/-- C5, counterexample. With `loading` true, a submit of `"salut"` is not rejected: the
transcript grows by two entries and one model call is issued. -/
theorem submit_while_loading_is_accepted :
    busyState.loading = true ∧
    (handleSend (demoWorld (.body (completionBody "Bonjour !")) .ok) (some "salut")
      busyState).1.messages.length = busyState.messages.length + 2 ∧
    modelCalls (handleSend (demoWorld (.body (completionBody "Bonjour !")) .ok)
      (some "salut") busyState).2 = 1 :=
  ⟨rfl, rfl, rfl⟩

/-- C5, amended. `handleSend` has no in-flight guard: while `loading` is true a submit of
a non-blank utterance is processed exactly as it is when idle, so the transcript grows
and, when an API key is configured, one new model call is issued; only a blank utterance
is rejected. -/
theorem submit_ignores_loading (w : World) (text : Option String) (s : State)
    (_ : s.loading = true) (hb : isBlank (userText text s.input) = false) :
    handleSend w text s = handleSend w text { s with loading := false } ∧
    s.messages.length < (handleSend w text s).1.messages.length ∧
    (s.apiKey.data.isEmpty = false → modelCalls (handleSend w text s).2 = 1) := by
  refine ⟨?_, ?_, ?_⟩
  · unfold handleSend
    simp only [hb, Bool.false_eq_true, if_false]
  · obtain ⟨⟨rest, hr⟩, _, _⟩ := handleSend_user_first w text s hb
    rw [← hr]
    simp
  · intro hk
    unfold handleSend
    simp only [hb, hk, Bool.false_eq_true, if_false]
    repeat' split
    all_goals first
      | rfl
      | (simp only [modelCalls_append, addGoogleEvent_modelCalls]
         rfl)

/-- C5, witness: `"salut"` submitted while `loading` is true. -/
theorem submit_ignores_loading_witness :
    handleSend (demoWorld .throws .ok) (some "salut") busyState =
      handleSend (demoWorld .throws .ok) (some "salut") { busyState with loading := false } ∧
    busyState.messages.length <
      (handleSend (demoWorld .throws .ok) (some "salut") busyState).1.messages.length ∧
    (busyState.apiKey.data.isEmpty = false →
      modelCalls (handleSend (demoWorld .throws .ok) (some "salut") busyState).2 = 1) :=
  submit_ignores_loading (demoWorld .throws .ok) (some "salut") busyState rfl rfl

/-- C6, the code at the failing input. The session has no Google token and the model
answers with a calendar action: `handleSend` appends the announcement and then the
confirmation `✅ Événement ajouté à ton Google Calendar !`, although `addGoogleEvent`
issued no request and only set the toast `Connecte-toi à Google d'abord`; no failure
message enters the transcript. The snapshot is unchanged. -/
theorem confirmation_follows_failed_creation :
    (handleSend (demoWorld (.body (completionBody appointmentReply)) .ok)
        (some "ajoute un rendez-vous demain à 9h") keyOnlyState).1.messages =
      keyOnlyState.messages ++
        [{ sender := .user, text := "ajoute un rendez-vous demain à 9h" },
         { sender := .assistant,
           text := "🗓️ Ajout de l’événement « Rendez-vous » le 2025-03-01 à 09:00..." },
         { sender := .assistant, text := "✅ Événement ajouté à ton Google Calendar !" }] ∧
    (handleSend (demoWorld (.body (completionBody appointmentReply)) .ok)
        (some "ajoute un rendez-vous demain à 9h") keyOnlyState).1.quickToast =
      some "Connecte-toi à Google d'abord" ∧
    calendarCalls (handleSend (demoWorld (.body (completionBody appointmentReply)) .ok)
        (some "ajoute un rendez-vous demain à 9h") keyOnlyState).2 = 0 ∧
    (handleSend (demoWorld (.body (completionBody appointmentReply)) .ok)
        (some "ajoute un rendez-vous demain à 9h") keyOnlyState).1.events =
      keyOnlyState.events :=
  ⟨rfl, rfl, rfl, rfl⟩

/-- C7, the code at the failing input. When the chat-completion request throws, or its
body does not decode, `handleSend` appends the user message and nothing else: no
assistant message describes the failure. `loading` returns to false and no calendar
request is issued. -/
theorem model_failure_leaves_no_message :
    (handleSend (demoWorld .throws .ok) (some "salut") keyOnlyState).1.messages =
      keyOnlyState.messages ++ [{ sender := .user, text := "salut" }] ∧
    (handleSend (demoWorld .undecodable .ok) (some "salut") keyOnlyState).1.messages =
      keyOnlyState.messages ++ [{ sender := .user, text := "salut" }] ∧
    (handleSend (demoWorld .throws .ok) (some "salut") keyOnlyState).1.loading = false ∧
    (handleSend (demoWorld .undecodable .ok) (some "salut") keyOnlyState).1.loading = false ∧
    calendarCalls (handleSend (demoWorld .throws .ok) (some "salut") keyOnlyState).2 = 0 ∧
    calendarCalls (handleSend (demoWorld .undecodable .ok) (some "salut") keyOnlyState).2 = 0 :=
  ⟨rfl, rfl, rfl, rfl, rfl, rfl⟩

/-! ## Calendar gateway: claims C8 and C9 -/

/-- C8, the code at the failing inputs. With a Google token, the request that
`addGoogleEvent` sends for `time = "09:30"` ends at `2025-03-01T10:00:00`, thirty minutes
after its start `2025-03-01T09:30:00`; for `"08:00"` it ends at `2025-03-01T9:00:00`,
whose hour is not padded; for `"23:00"` it ends at `2025-03-01T24:00:00`. With an empty
`time` the end is the sentinel `2025-03-01T23:59:00`; both time zones are
`America/Toronto`. -/
theorem end_time_drops_minutes_and_padding :
    createdSpans (addGoogleEvent (demoWorld .throws (.rejected true)) (.str "Dentiste")
        (.str "2025-03-01") (.str "09:30") connectedState).2 =
      [("2025-03-01T09:30:00", "2025-03-01T10:00:00")] ∧
    createdSpans (addGoogleEvent (demoWorld .throws (.rejected true)) (.str "Dentiste")
        (.str "2025-03-01") (.str "08:00") connectedState).2 =
      [("2025-03-01T08:00:00", "2025-03-01T9:00:00")] ∧
    createdSpans (addGoogleEvent (demoWorld .throws (.rejected true)) (.str "Dentiste")
        (.str "2025-03-01") (.str "23:00") connectedState).2 =
      [("2025-03-01T23:00:00", "2025-03-01T24:00:00")] ∧
    createdSpans (addGoogleEvent (demoWorld .throws (.rejected true)) (.str "Dentiste")
        (.str "2025-03-01") (.str "") connectedState).2 =
      [("2025-03-01T:00", "2025-03-01T23:59:00")] ∧
    createdZones (addGoogleEvent (demoWorld .throws (.rejected true)) (.str "Dentiste")
        (.str "2025-03-01") (.str "09:30") connectedState).2 =
      [("America/Toronto", "America/Toronto")] :=
  ⟨rfl, rfl, rfl, rfl, rfl⟩

/-- C9. Absence of a credential short-circuits the operation that needs it. With no API
key, a submit of a non-blank utterance appends the user message and one assistant notice
and issues no model request. With no Google token (null or empty), `fetchGoogleEvents` and
`addGoogleEvent` issue no request, set the toast `Connecte-toi à Google d'abord` and
change nothing else, so the snapshot is unchanged. -/
theorem missing_credential_short_circuits (w : World) (s : State) :
    (s.apiKey = "" → ∀ text : Option String, isBlank (userText text s.input) = false →
      (handleSend w text s).1.messages =
        s.messages ++ [{ sender := .user, text := userText text s.input }, noKeyNotice] ∧
      noKeyNotice.sender = .assistant ∧
      modelCalls (handleSend w text s).2 = 0 ∧
      (handleSend w text s).1.events = s.events) ∧
    (liveToken s.googleToken = none →
      fetchGoogleEvents w s =
        ({ s with quickToast := some "Connecte-toi à Google d'abord" }, []) ∧
      (fetchGoogleEvents w s).1.events = s.events ∧
      ∀ title date time : JSValue,
        addGoogleEvent w title date time s =
          ({ s with quickToast := some "Connecte-toi à Google d'abord" }, []) ∧
        (addGoogleEvent w title date time s).1.events = s.events) := by
  constructor
  · intro hk text hb
    have hk2 : s.apiKey.data.isEmpty = true := by rw [hk]; rfl
    unfold handleSend
    simp only [hb, hk2, Bool.false_eq_true, if_false, if_true]
    refine ⟨?_, rfl, rfl, ?_⟩
    · simp
    · trivial
  · intro ht
    have h1 : fetchGoogleEvents w s =
        ({ s with quickToast := some "Connecte-toi à Google d'abord" }, []) := by
      unfold fetchGoogleEvents
      rw [ht]
    have h2 : ∀ title date time : JSValue, addGoogleEvent w title date time s =
        ({ s with quickToast := some "Connecte-toi à Google d'abord" }, []) := by
      intro title date time
      unfold addGoogleEvent
      rw [ht]
    refine ⟨h1, by rw [h1], fun title date time => ⟨h2 title date time, by rw [h2]⟩⟩

/-- C9, witness: the starting state with neither key nor token, and the utterance
`"salut"`. -/
theorem missing_credential_short_circuits_witness :
    (handleSend (demoWorld .throws .ok) (some "salut") bareState).1.messages =
      bareState.messages ++ [{ sender := .user, text := "salut" }, noKeyNotice] ∧
    modelCalls (handleSend (demoWorld .throws .ok) (some "salut") bareState).2 = 0 ∧
    fetchGoogleEvents (demoWorld .throws .ok) bareState =
      ({ bareState with quickToast := some "Connecte-toi à Google d'abord" }, []) ∧
    addGoogleEvent (demoWorld .throws .ok) (.str "Dentiste") (.str "2025-03-01")
        (.str "09:00") bareState =
      ({ bareState with quickToast := some "Connecte-toi à Google d'abord" }, []) :=
  ⟨((missing_credential_short_circuits (demoWorld .throws .ok) bareState).1 rfl
      (some "salut") rfl).1,
   ((missing_credential_short_circuits (demoWorld .throws .ok) bareState).1 rfl
      (some "salut") rfl).2.2.1,
   ((missing_credential_short_circuits (demoWorld .throws .ok) bareState).2 rfl).1,
   (((missing_credential_short_circuits (demoWorld .throws .ok) bareState).2 rfl).2.2
      (.str "Dentiste") (.str "2025-03-01") (.str "09:00")).1⟩

/-! ## Transcript: claim C10 -/

/-- C10. The transcript is append-only: on every path of `handleSend`, and in the voice
handler `onresult`, the transcript before the operation is an initial segment of the
transcript after it. -/
theorem transcript_append_only (w : World) (s : State) :
    (∀ text : Option String, s.messages <+: (handleSend w text s).1.messages) ∧
    (∀ transcript : String, s.messages <+: (onresult w transcript s).1.messages) := by
  have hs : ∀ (text : Option String) (t : State),
      t.messages <+: (handleSend w text t).1.messages := by
    intro text t
    cases hb : isBlank (userText text t.input) with
    | true =>
      rw [handleSend_blank w text t hb]
    | false =>
      exact (List.prefix_append _ _).trans (handleSend_user_first w text t hb).1
  refine ⟨fun text => hs text s, fun transcript => ?_⟩
  exact (List.prefix_append s.messages [{ sender := .user, text := transcript }]).trans
    (hs (some transcript)
      { s with input := transcript,
               messages := s.messages ++ [{ sender := .user, text := transcript }] })

/-! ## Calendar gateway: claim C11 -/

/-- The first component of a text split at its first separator. -/
theorem splitFirst_append (sep : Char) (day t : List Char) (h : sep ∉ day) :
    splitFirst sep (day ++ sep :: t) = day := by
  induction day with
  | nil => simp [splitFirst]
  | cons c cs ih =>
    simp only [List.mem_cons, not_or] at h
    have hc : (c != sep) = true := by
      simp only [bne_iff_ne, ne_eq]
      exact fun e => h.1 e.symm
    have := ih h.2
    simp only [splitFirst] at this ⊢
    simp [List.takeWhile_cons, hc, this]

/-- The second component of a text split at its first separator. -/
theorem splitSecond_append (sep : Char) (day t : List Char) (h : sep ∉ day) :
    splitSecond sep (day ++ sep :: t) = some (t.takeWhile (fun c => c != sep)) := by
  induction day with
  | nil => simp [splitSecond]
  | cons c cs ih =>
    simp only [List.mem_cons, not_or] at h
    have hc : (c != sep) = true := by
      simp only [bne_iff_ne, ne_eq]
      exact fun e => h.1 e.symm
    have := ih h.2
    simp only [splitSecond] at this ⊢
    simpa [List.dropWhile_cons, hc] using this

/-- A decimal digit is not the separator `T` and lies in the basic plane. -/
theorem digit_facts {c : Char} (h : isAsciiDigit c = true) :
    (c != 'T') = true ∧ c.toNat < 0x10000 := by
  simp only [isAsciiDigit, Bool.and_eq_true, decide_eq_true_eq] at h
  refine ⟨?_, by omega⟩
  simp only [bne_iff_ne, ne_eq]
  intro e
  subst e
  have : ('T' : Char).toNat = 84 := rfl
  omega

/-- The first five code units of a time part that begins with `HH:MM`. -/
theorem slice_hhmm (h1 h2 m1 m2 : Char) (rest : List Char)
    (d1 : isAsciiDigit h1 = true) (d2 : isAsciiDigit h2 = true)
    (d3 : isAsciiDigit m1 = true) (d4 : isAsciiDigit m2 = true) :
    sliceUnits 5 ((h1 :: h2 :: ':' :: m1 :: m2 :: rest).takeWhile (fun c => c != 'T')) =
      [h1, h2, ':', m1, m2] := by
  have f1 := digit_facts d1
  have f2 := digit_facts d2
  have f3 := digit_facts d3
  have f4 := digit_facts d4
  have hc : ((':' : Char) != 'T') = true := by decide
  have hn : (':' : Char).toNat < 0x10000 := by decide
  simp only [List.takeWhile_cons, f1.1, f2.1, f3.1, f4.1, hc, if_true, sliceUnits,
    f1.2, f2.2, f3.2, f4.2, hn]

/-- An item is mapped, without exception, to the event the specification gives it. -/
theorem formatItem_of_shape (item : JSValue) (e : CalendarEvent) (h : ItemMapsTo item e) :
    formatItem item = some e := by
  obtain ⟨start, hs, htitle, hcase⟩ := h
  have ht : (if (item.optProp "summary").truthy = true then item.optProp "summary"
      else .str "(Sans titre)") = e.title := by
    rcases htitle with ⟨h1, h2⟩ | ⟨h1, h2⟩
    · rw [if_pos h1, h2]
    · rw [h1, h2]
      rfl
  obtain ⟨date, time, title⟩ := e
  simp only at ht hcase
  subst ht
  rcases hcase with ⟨day, h1, h2, m1, m2, rest, hdt, hne, hday, d1, d2, d3, d4, hd, htm⟩ |
    ⟨hdt, hd, htm⟩
  · subst hd htm
    have hnonempty : (day ++ 'T' :: h1 :: h2 :: ':' :: m1 :: m2 :: rest).isEmpty = false := by
      cases day <;> simp
    have hdayne : day.isEmpty = false := by
      cases day <;> simp at hne ⊢
    unfold formatItem
    simp only [hs, hdt, splitFirst_append 'T' day _ hday, splitSecond_append 'T' day _ hday,
      slice_hhmm h1 h2 m1 m2 rest d1 d2 d3 d4, hnonempty, hdayne]
    simp
  · subst hd htm
    unfold formatItem
    simp only [hs, hdt]

/-- A sequence of items is mapped element by element, in order. -/
theorem formatItems_of_shapes (xs : List JSValue) (expected : List CalendarEvent)
    (h : List.Forall₂ ItemMapsTo xs expected) : formatItems xs = some expected := by
  induction h with
  | nil => rfl
  | cons hx _ ih => simp [formatItems, formatItem_of_shape _ _ hx, ih]

/-- C11, counterexample. The list call answers with an `items` sequence whose item has no
`start`: the mapping throws, the snapshot stays the previous one, and the notice
`Erreur Google Calendar` is set, so the snapshot is not replaced by the mapped items. -/
theorem malformed_item_keeps_old_snapshot :
    malformedListWorld.listResponse =
      .body (.obj [("items", .arr [.obj [("summary", .str "Réunion")]])]) ∧
    (fetchGoogleEvents malformedListWorld loadedState).1.events = sampleSnapshot ∧
    (fetchGoogleEvents malformedListWorld loadedState).1.events.length = 3 ∧
    (fetchGoogleEvents malformedListWorld loadedState).1.quickToast =
      some "Erreur Google Calendar" :=
  ⟨rfl, rfl, rfl, rfl⟩

/-- C11, amended. After a list call that answers with an `items` sequence, when every
item has a `start` carrying a `dateTime` of the form `<date>T<HH:MM>...` or no `dateTime`,
the snapshot is replaced wholesale: it is exactly the sequence `expected` of the mapped
items, in order, whatever the previous snapshot was; the mapping is that of `ItemMapsTo`.
When the mapping of an item throws, the snapshot is left as it was and the notice
`Erreur Google Calendar` is set. -/
theorem list_replaces_snapshot (w : World) (s : State) (token : String) (data : JSValue)
    (xs : List JSValue)
    (ht : liveToken s.googleToken = some token)
    (hr : w.listResponse = .body data)
    (hi : data.getProp "items" = some (.arr xs)) :
    (∀ expected : List CalendarEvent, List.Forall₂ ItemMapsTo xs expected →
      (fetchGoogleEvents w s).1.events = expected ∧
      ∀ previous : List CalendarEvent,
        (fetchGoogleEvents w { s with events := previous }).1.events = expected) ∧
    (formatItems xs = none →
      ∀ previous : List CalendarEvent,
        (fetchGoogleEvents w { s with events := previous }).1.events = previous ∧
        (fetchGoogleEvents w { s with events := previous }).1.quickToast =
          some "Erreur Google Calendar") := by
  constructor
  · intro expected hx
    have hf := formatItems_of_shapes xs expected hx
    refine ⟨?_, fun previous => ?_⟩
    · unfold fetchGoogleEvents
      simp [ht, hr, hi, hf, JSValue.truthy]
    · unfold fetchGoogleEvents
      simp [ht, hr, hi, hf, JSValue.truthy]
  · intro hf previous
    unfold fetchGoogleEvents
    simp [ht, hr, hi, hf, JSValue.truthy]

/-- C11, witness: a response with a timed item, an all-day item and an item without
summary, received in the connected state that holds three other events; the snapshot
becomes the three mapped items. -/
theorem list_replaces_snapshot_witness :
    (fetchGoogleEvents listWorld loadedState).1.events =
      [{ date := .str "2025-03-01", time := .str "09:30", title := .str "Réunion" },
       { date := .str "2025-03-02", time := .str "", title := .str "Congé" },
       { date := .str "2025-03-02", time := .str "18:00", title := .str "(Sans titre)" }] :=
  ((list_replaces_snapshot listWorld connectedState "ya29.demo"
      (.obj [("items", .arr sampleItems)]) sampleItems rfl rfl rfl).1
    [{ date := .str "2025-03-01", time := .str "09:30", title := .str "Réunion" },
     { date := .str "2025-03-02", time := .str "", title := .str "Congé" },
     { date := .str "2025-03-02", time := .str "18:00", title := .str "(Sans titre)" }]
    (List.Forall₂.cons
      ⟨_, rfl, Or.inl ⟨rfl, rfl⟩,
        Or.inl ⟨"2025-03-01".data, '0', '9', '3', '0', ":00-05:00".data, rfl,
          (by decide), (by decide), rfl, rfl, rfl, rfl, rfl, rfl⟩⟩
      (List.Forall₂.cons
        ⟨_, rfl, Or.inl ⟨rfl, rfl⟩, Or.inr ⟨rfl, rfl, rfl⟩⟩
        (List.Forall₂.cons
          ⟨_, rfl, Or.inr ⟨rfl, rfl⟩,
            Or.inl ⟨"2025-03-02".data, '1', '8', '0', '0', ":00-05:00".data, rfl,
              (by decide), (by decide), rfl, rfl, rfl, rfl, rfl, rfl⟩⟩
          List.Forall₂.nil)))).2 sampleSnapshot

/-! ## Orchestrator: claim C12 -/

/-- C12. The orchestrator always returns to idle: for every non-blank utterance, every
initial state and every outcome of the model call and of the calendar calls, `loading` is
false once `handleSend` has settled. -/
theorem handleSend_returns_to_idle (w : World) (text : Option String) (s : State)
    (hb : ∃ c ∈ (userText text s.input).data, isJSWhitespace c = false) :
    (handleSend w text s).1.loading = false := by
  have hb2 : isBlank (userText text s.input) = false := by
    rcases hb with ⟨c, hc, hw⟩
    cases hq : isBlank (userText text s.input) with
    | false => rfl
    | true =>
      have := (isBlank_iff _).1 hq c hc
      rw [this] at hw
      cases hw
  exact (handleSend_user_first w text s hb2).2.2

/-- C12, witness: the calendar action of the appointment reply, with a token and a
creation request that is refused. -/
theorem handleSend_returns_to_idle_witness :
    (handleSend (demoWorld (.body (completionBody appointmentReply)) (.rejected true))
      (some "ajoute un rendez-vous demain à 9h") connectedState).1.loading = false :=
  handleSend_returns_to_idle
    (demoWorld (.body (completionBody appointmentReply)) (.rejected true))
    (some "ajoute un rendez-vous demain à 9h") connectedState ⟨'a', by decide, by decide⟩

/-! ## Proposal engine: claims C13 to C17 -/

/-- The refresh does not write the proposal. -/
theorem fetchGoogleEvents_proposal (w : World) (s : State) :
    (fetchGoogleEvents w s).1.proposal = s.proposal := by
  unfold fetchGoogleEvents
  repeat' split
  all_goals rfl

/-- The creation handler does not write the proposal. -/
theorem addGoogleEvent_proposal (w : World) (title date time : JSValue) (s : State) :
    (addGoogleEvent w title date time s).1.proposal = s.proposal := by
  unfold addGoogleEvent
  repeat' split
  all_goals first
    | rfl
    | exact fetchGoogleEvents_proposal w _

/-- A submit does not write the proposal. -/
theorem handleSend_proposal (w : World) (text : Option String) (s : State) :
    (handleSend w text s).1.proposal = s.proposal := by
  cases hb : isBlank (userText text s.input) with
  | true => rw [handleSend_blank w text s hb]
  | false =>
    unfold handleSend
    simp only [hb, Bool.false_eq_true, if_false]
    repeat' split
    all_goals first
      | rfl
      | exact addGoogleEvent_proposal w _ _ _ _

/-- An approval does not write the proposal. -/
theorem approveProposal_proposal (s : State) (r : State × List Effect)
    (h : approveProposal s = some r) : r.1.proposal = s.proposal := by
  unfold approveProposal at h
  cases hl : approvedLists s with
  | none => rw [hl] at h; cases h
  | some lists =>
    rw [hl] at h
    cases h
    rfl

/-- Every reachable state holds a proposal of type `karate` with a `calendar` block. -/
theorem reachable_proposal_is_plan_with_block (s : State) (h : Reachable s) :
    s.proposal.type = "karate" ∧ ∃ c, s.proposal.calendar = some c := by
  induction h with
  | start assistantName apiKey googleToken today => exact ⟨rfl, _, rfl⟩
  | send w text _ ih => rw [handleSend_proposal]; exact ih
  | voice w transcript _ ih =>
    unfold onresult
    simp only
    rw [handleSend_proposal]
    exact ih
  | list w _ ih => rw [fetchGoogleEvents_proposal]; exact ih
  | opened _ ih => exact ih
  | discarded _ ih => exact ih
  | modified _ ih => exact ih
  | approved _ hr ih => rw [approveProposal_proposal _ _ hr]; exact ih
  | other _ he ih => rw [he]; exact ih

/-- A proposal of type `karate` with a block is approved into one plan entry. -/
theorem approve_plan_with_block (s : State) (c : ProposalCalendar)
    (ht : s.proposal.type = "karate") (hc : s.proposal.calendar = some c) :
    ∃ r, approveProposal s = some r ∧
      r.1.karatePlan = s.karatePlan ++ [{ jour := c.date, theme := s.proposal.title }] ∧
      r.1.ideas = s.ideas := by
  have hl : approvedLists s =
      some (s.karatePlan ++ [{ jour := c.date, theme := s.proposal.title }], s.ideas) := by
    unfold approvedLists
    simp [ht, hc]
  exact ⟨_, by unfold approveProposal; rw [hl], rfl, rfl⟩

/-- C13. Every pending Plan proposal is approved into exactly one plan entry
`{ jour: calendar.date, theme: title }` appended to the plan list, the idea list unchanged:
every state the component can reach holds a proposal of type `karate` that carries a
calendar block (none is ever without one), and approving it completes. The same holds of
every proposal of type `karate` with a block, reachable or not. For every proposal of type
`idea`, with or without a block, approving appends exactly one idea carrying the title,
the plan list unchanged. -/
theorem approve_appends_one_entry :
    (∀ s : State, Reachable s →
      s.proposal.type = "karate" ∧
      ∃ c, s.proposal.calendar = some c ∧
        ∃ r, approveProposal s = some r ∧
          r.1.karatePlan = s.karatePlan ++ [{ jour := c.date, theme := s.proposal.title }] ∧
          r.1.ideas = s.ideas) ∧
    (∀ (s : State) (c : ProposalCalendar), s.proposal.type = "karate" →
      s.proposal.calendar = some c →
      ∃ r, approveProposal s = some r ∧
        r.1.karatePlan = s.karatePlan ++ [{ jour := c.date, theme := s.proposal.title }] ∧
        r.1.ideas = s.ideas) ∧
    (∀ s : State, s.proposal.type = "idea" →
      ∃ r, approveProposal s = some r ∧
        r.1.ideas = s.ideas ++ [s.proposal.title] ∧
        r.1.karatePlan = s.karatePlan) := by
  refine ⟨?_, approve_plan_with_block, ?_⟩
  · intro s hs
    obtain ⟨ht, c, hc⟩ := reachable_proposal_is_plan_with_block s hs
    exact ⟨ht, c, hc, approve_plan_with_block s c ht hc⟩
  · intro s ht
    have hl : approvedLists s = some (s.karatePlan, s.ideas ++ [s.proposal.title]) := by
      unfold approvedLists
      simp [ht]
    exact ⟨_, by unfold approveProposal; rw [hl], rfl, rfl⟩

/-- C13, witness: the proposal edited once after the start, and an idea proposal. -/
theorem approve_appends_one_entry_witness :
    (∃ r, approveProposal (modifyProposal keyOnlyState) = some r ∧
      r.1.karatePlan =
        [{ jour := "2025-02-28", theme := "Cycle Kicks & Cardio (45 min) (modifié)" }] ∧
      r.1.ideas = []) ∧
    (∃ r, approveProposal
        { keyOnlyState with proposal := { planWithoutCalendar with type := "idea" } } =
          some r ∧
      r.1.ideas = ["Cycle Kicks & Cardio (45 min)"] ∧ r.1.karatePlan = []) :=
  ⟨(approve_appends_one_entry.2.1 (modifyProposal keyOnlyState)
      { date := "2025-02-28", time := "19:00", title := "Entraînement Karaté – Kicks" }
      rfl rfl),
   approve_appends_one_entry.2.2
     { keyOnlyState with proposal := { planWithoutCalendar with type := "idea" } } rfl⟩

/-- C14, counterexample. In the connected starting state the proposal carries a calendar
block, yet approving it issues no request to the calendar service: `createEvent` is not
called. The proposed event is appended to the snapshot. -/
theorem approve_issues_no_calendar_request :
    liveToken connectedState.googleToken = some "ya29.demo" ∧
    connectedState.proposal.calendar =
      some { date := "2025-02-28", time := "19:00", title := "Entraînement Karaté – Kicks" } ∧
    (approveProposal connectedState).map (fun r => r.2.length) = some 0 ∧
    (approveProposal connectedState).map (fun r => r.1.events.length) = some 1 :=
  ⟨rfl, rfl, rfl, rfl⟩

/-- C14, amended. `approveProposal` never calls `createEvent`. For a proposal with a
calendar block, when the session has a Google token, it appends the proposed event
`{ date, time, title }` to the end of the snapshot; when an approval that completes has
no calendar block, or the session has no token, the snapshot is unchanged. -/
theorem approve_appends_locally (s : State) :
    (∀ r, approveProposal s = some r → r.2 = []) ∧
    (∀ (c : ProposalCalendar) (token : String), s.proposal.calendar = some c →
      liveToken s.googleToken = some token →
      ∃ r, approveProposal s = some r ∧
        r.1.events = s.events ++
          [{ date := .str c.date, time := .str c.time, title := .str c.title }]) ∧
    (∀ r, approveProposal s = some r →
      (s.proposal.calendar = none ∨ liveToken s.googleToken = none) →
      r.1.events = s.events) := by
  refine ⟨?_, ?_, ?_⟩
  · intro r hr
    unfold approveProposal at hr
    cases hl : approvedLists s with
    | none => rw [hl] at hr; cases hr
    | some lists =>
      rw [hl] at hr
      cases hr
      rfl
  · intro c token hc ht
    have hl : ∃ lists, approvedLists s = some lists := by
      unfold approvedLists
      rw [hc]
      by_cases h1 : (s.proposal.type == "karate") = true
      · exact ⟨_, by rw [if_pos h1]⟩
      · by_cases h2 : (s.proposal.type == "idea") = true
        · exact ⟨_, by rw [if_neg h1, if_pos h2]⟩
        · exact ⟨_, by rw [if_neg h1, if_neg h2]⟩
    obtain ⟨lists, hl⟩ := hl
    refine ⟨_, by unfold approveProposal; rw [hl], ?_⟩
    simp [approvedEvents, hc, ht]
  · intro r hr hno
    unfold approveProposal at hr
    cases hl : approvedLists s with
    | none => rw [hl] at hr; cases hr
    | some lists =>
      rw [hl] at hr
      cases hr
      rcases hno with hc | ht
      · simp only [approvedEvents, hc]
        split <;> simp_all
      · simp [approvedEvents, ht]

/-- C14, witness: the starting proposal approved with and without a token. -/
theorem approve_appends_locally_witness :
    (∃ r, approveProposal connectedState = some r ∧
      r.1.events = connectedState.events ++
        [{ date := .str "2025-02-28", time := .str "19:00",
           title := .str "Entraînement Karaté – Kicks" }]) ∧
    (∀ r, approveProposal keyOnlyState = some r → r.1.events = keyOnlyState.events) :=
  ⟨(approve_appends_locally connectedState).2.1
      { date := "2025-02-28", time := "19:00", title := "Entraînement Karaté – Kicks" }
      "ya29.demo" rfl rfl,
   fun r hr => (approve_appends_locally keyOnlyState).2.2 r hr (Or.inr rfl)⟩

/-- C15, counterexample. Open, edit, discard, open again: the proposal shown is the one
held before, with the edited title, not a proposal built anew. -/
theorem reopen_shows_edited_proposal :
    (openProposal (discardProposal (modifyProposal
      (openProposal keyOnlyState).1))).1.proposal.title =
      "Cycle Kicks & Cardio (45 min) (modifié)" ∧
    (openProposal (discardProposal (modifyProposal
      (openProposal keyOnlyState).1))).1.proposal.title ≠ keyOnlyState.proposal.title ∧
    (openProposal (discardProposal (modifyProposal
      (openProposal keyOnlyState).1))).1.showProposal = true :=
  ⟨rfl, by decide, rfl⟩

/-- C15, amended. Opening builds no proposal: for every prior state it shows the proposal
the state already holds, unchanged, and writes nothing but the visibility flag. -/
theorem open_shows_held_proposal (s : State) :
    (openProposal s).1.proposal = s.proposal ∧
    (openProposal s).1.showProposal = true ∧
    (openProposal s).1 = { s with showProposal := true } ∧
    (openProposal s).2 = [.speak "Proposition d'entraînement prête."] :=
  ⟨rfl, rfl, rfl, rfl⟩

/-- C16, counterexample. The edit takes no transform from its caller: for the identity
transform the title after the edit is not the transformed old title. -/
theorem edit_is_not_caller_supplied :
    ¬ ∀ f : String → String,
      (modifyProposal keyOnlyState).proposal.title = f keyOnlyState.proposal.title := by
  intro h
  have := h (fun t => t)
  revert this
  decide

/-- C16, amended. The edit applies the fixed transform that appends ` (modifié)` to the
title, and nothing else of the proposal changes: type, items, calendar block and notes
are the same, the visibility flag is the same, and the plan list, the idea list, the
snapshot and the transcript are unchanged. -/
theorem edit_appends_fixed_suffix (s : State) :
    (modifyProposal s).proposal.title = s.proposal.title ++ " (modifié)" ∧
    (modifyProposal s).proposal.type = s.proposal.type ∧
    (modifyProposal s).proposal.items = s.proposal.items ∧
    (modifyProposal s).proposal.calendar = s.proposal.calendar ∧
    (modifyProposal s).proposal.notes = s.proposal.notes ∧
    (modifyProposal s).showProposal = s.showProposal ∧
    (modifyProposal s).karatePlan = s.karatePlan ∧
    (modifyProposal s).ideas = s.ideas ∧
    (modifyProposal s).events = s.events ∧
    (modifyProposal s).messages = s.messages :=
  ⟨rfl, rfl, rfl, rfl, rfl, rfl, rfl, rfl, rfl, rfl⟩

/-- C17. Discarding is idempotent and effect-free: after one discard the proposal is no
longer shown, a second discard gives the same state as the first, and neither call
changes the plan list, the idea list, the snapshot or the transcript. -/
theorem discard_idempotent (s : State) :
    (discardProposal s).showProposal = false ∧
    discardProposal (discardProposal s) = discardProposal s ∧
    (discardProposal (discardProposal s)).showProposal = false ∧
    (discardProposal s).karatePlan = s.karatePlan ∧
    (discardProposal s).ideas = s.ideas ∧
    (discardProposal s).events = s.events ∧
    (discardProposal s).messages = s.messages ∧
    (discardProposal s).proposal = s.proposal ∧
    (discardProposal (discardProposal s)).karatePlan = s.karatePlan ∧
    (discardProposal (discardProposal s)).ideas = s.ideas ∧
    (discardProposal (discardProposal s)).events = s.events ∧
    (discardProposal (discardProposal s)).messages = s.messages :=
  ⟨rfl, rfl, rfl, rfl, rfl, rfl, rfl, rfl, rfl, rfl, rfl, rfl⟩

/-! ## Prompt: claim C18 -/

/-- Joining onto a non-empty text gives a non-empty text. -/
theorem intercalate_go_ne (s : String) (rest : List String) :
    ∀ acc : String, acc.data ≠ [] → (String.intercalate.go acc s rest).data ≠ [] := by
  induction rest with
  | nil => intro acc h; simpa [String.intercalate.go] using h
  | cons a rest ih =>
    intro acc h
    simp only [String.intercalate.go]
    apply ih
    simp [h]

/-- The two cases of the summary of a day. -/
theorem dayList_cases (w : World) (events : List CalendarEvent) (day nonePhrase : String) :
    ((events.filter (fun e => e.date.strictEqStr day)) = [] →
      dayList w events day nonePhrase = nonePhrase) ∧
    ((events.filter (fun e => e.date.strictEqStr day)) ≠ [] →
      dayList w events day nonePhrase = "; ".intercalate
        ((events.filter (fun e => e.date.strictEqStr day)).map
          (fun e => jsStr w e.time ++ " → " ++ jsStr w e.title))) := by
  constructor
  · intro h
    simp [dayList, h, String.intercalate]
  · intro h
    unfold dayList
    cases hf : events.filter (fun e => e.date.strictEqStr day) with
    | nil => exact absurd hf h
    | cons e rest =>
      have hne : ("; ".intercalate ((e :: rest).map
          (fun e => jsStr w e.time ++ " → " ++ jsStr w e.title))).data ≠ [] := by
        simp only [List.map_cons, String.intercalate]
        apply intercalate_go_ne
        simp
      have hfalse : ("; ".intercalate ((e :: rest).map
          (fun e => jsStr w e.time ++ " → " ++ jsStr w e.title))).data.isEmpty = false := by
        cases hq : ("; ".intercalate ((e :: rest).map
          (fun e => jsStr w e.time ++ " → " ++ jsStr w e.title))).data with
        | nil => exact absurd hq hne
        | cons _ _ => rfl
      simp only [hfalse, Bool.false_eq_true, if_false]

/-- The summary of a day is not empty when the none phrase is not. -/
theorem dayList_ne_empty (w : World) (events : List CalendarEvent) (day nonePhrase : String)
    (hn : nonePhrase ≠ "") : dayList w events day nonePhrase ≠ "" := by
  unfold dayList
  simp only
  split
  · exact hn
  · rename_i h
    intro e
    rw [e] at h
    exact h rfl

/-- The selection and rendering of the program are the entries of the specification. -/
theorem filter_map_eq_summaryEntries (w : World) (day : String)
    (events : List CalendarEvent) :
    (events.filter (fun e => e.date.strictEqStr day)).map
        (fun e => jsStr w e.time ++ " → " ++ jsStr w e.title) =
      summaryEntries w day events := by
  induction events with
  | nil => rfl
  | cons e rest ih =>
    obtain ⟨date, time, title⟩ := e
    cases date with
    | str d =>
      by_cases hd : d = day
      · simp [summaryEntries, JSValue.strictEqStr, hd, ← ih]
      · simp [summaryEntries, JSValue.strictEqStr, hd, ← ih]
    | undefined => simp [summaryEntries, JSValue.strictEqStr, ← ih]
    | null => simp [summaryEntries, JSValue.strictEqStr, ← ih]
    | bool _ => simp [summaryEntries, JSValue.strictEqStr, ← ih]
    | num _ => simp [summaryEntries, JSValue.strictEqStr, ← ih]
    | arr _ => simp [summaryEntries, JSValue.strictEqStr, ← ih]
    | obj _ => simp [summaryEntries, JSValue.strictEqStr, ← ih]

/-- The accumulator of `join` can be split off its front. -/
theorem intercalate_go_append (s : String) (rest : List String) :
    ∀ acc x : String,
      String.intercalate.go (acc ++ x) s rest = acc ++ String.intercalate.go x s rest := by
  induction rest with
  | nil => intro acc x; rfl
  | cons a rest ih =>
    intro acc x
    simp only [String.intercalate.go]
    rw [← ih acc (x ++ s ++ a)]
    simp only [String.append_assoc]

/-- The built-in `join("; ")` is the joining of the specification. -/
theorem intercalate_eq_joinEntries (entries : List String) :
    "; ".intercalate entries = joinEntries entries := by
  cases entries with
  | nil => rfl
  | cons x rest =>
    simp only [String.intercalate]
    induction rest generalizing x with
    | nil => rfl
    | cons y rest ih =>
      simp only [String.intercalate.go, joinEntries]
      rw [intercalate_go_append "; " rest (x ++ "; ") y, ih y]

/-- The summary the program builds is the summary of the specification. -/
theorem dayList_eq_daySummary (w : World) (events : List CalendarEvent)
    (day nonePhrase : String) :
    dayList w events day nonePhrase = daySummary w events day nonePhrase := by
  have hc := dayList_cases w events day nonePhrase
  rw [filter_map_eq_summaryEntries] at hc
  unfold daySummary
  cases he : summaryEntries w day events with
  | nil =>
    apply hc.1
    have := filter_map_eq_summaryEntries w day events
    rw [he] at this
    simpa using this
  | cons x rest =>
    have hne : events.filter (fun e => e.date.strictEqStr day) ≠ [] := by
      intro hnil
      have := filter_map_eq_summaryEntries w day events
      rw [hnil, he] at this
      cases this
    rw [hc.2 hne, he, intercalate_eq_joinEntries]

/-- An accepted submit with an API key issues, right after the user append, the request
whose system message is `systemPrompt` of the snapshot. -/
theorem handleSend_request (w : World) (text : Option String) (s : State)
    (hb : isBlank (userText text s.input) = false) (hk : s.apiKey.data.isEmpty = false) :
    ∃ later : List Effect, (handleSend w text s).2 =
      .setMessages { sender := .user, text := userText text s.input } ::
      .modelRequest s.apiKey s.model (systemPrompt w s.events) (userText text s.input) ::
      later := by
  unfold handleSend
  simp only [hb, hk, Bool.false_eq_true, if_false]
  cases w.modelResponse with
  | throws => exact ⟨[], rfl⟩
  | undecodable => exact ⟨[], rfl⟩
  | body data =>
    simp only []
    cases botReplyOf data with
    | none => exact ⟨[], rfl⟩
    | some reply =>
      simp only []
      cases classify w.JSONparse reply with
      | FreeText x => exact ⟨_, rfl⟩
      | CalendarAction a b c => exact ⟨_, rfl⟩

/-- C18. In the prompt of the request that `handleSend` issues, the summary of a day is
never the empty string: for every snapshot, every non-blank utterance and every API key,
the system message of the request is the template of lines 320-334 holding, for today and
for tomorrow, the summary `daySummary` of the snapshot (the none phrase when no event has
the date of the day, and otherwise the entries `time → title` of exactly the events with
that date, in snapshot order, joined by `; `), and neither summary is empty. -/
theorem prompt_day_summaries_never_empty (w : World) (text : Option String) (s : State)
    (hb : ∃ c ∈ (userText text s.input).data, isJSWhitespace c = false)
    (hk : s.apiKey ≠ "") :
    (∃ later : List Effect, (handleSend w text s).2 =
      .setMessages { sender := .user, text := userText text s.input } ::
      .modelRequest s.apiKey s.model
        ("Tu es Jarvis, assistant personnel francophone relié à Google Calendar.\n" ++
         "            Nous sommes le " ++ w.todayLong ++ ".\n" ++
         "            Voici les événements connus :\n" ++
         "            • Aujourd’hui : " ++
           daySummary w s.events w.todayStr "aucun événement aujourd’hui" ++ "\n" ++
         "            • Demain : " ++
           daySummary w s.events w.tomorrowStr "aucun événement demain" ++ "\n" ++
         "  \n" ++
         "            Si l’utilisateur te demande d’ajouter un événement,\n" ++
         "            tu dois répondre uniquement sous forme JSON à la ligne suivante :\n" ++
         "            \x7b\"action\":\"add_event\",\"title\":\"Titre\",\"date\":\"YYYY-MM-DD\",\"time\":\"HH:MM\"\x7d\n" ++
         "            Sinon, réponds normalement en texte.")
        (userText text s.input) :: later) ∧
    daySummary w s.events w.todayStr "aucun événement aujourd’hui" ≠ "" ∧
    daySummary w s.events w.tomorrowStr "aucun événement demain" ≠ "" := by
  have hb2 : isBlank (userText text s.input) = false := by
    rcases hb with ⟨c, hc, hw⟩
    cases hq : isBlank (userText text s.input) with
    | false => rfl
    | true =>
      have := (isBlank_iff _).1 hq c hc
      rw [this] at hw
      cases hw
  have hk2 : s.apiKey.data.isEmpty = false := by
    cases hd : s.apiKey.data with
    | nil => exact absurd (String.ext hd) hk
    | cons _ _ => rfl
  refine ⟨?_, ?_, ?_⟩
  · obtain ⟨later, hl⟩ := handleSend_request w text s hb2 hk2
    refine ⟨later, ?_⟩
    rw [hl]
    unfold systemPrompt
    rw [dayList_eq_daySummary, dayList_eq_daySummary]
  · rw [← dayList_eq_daySummary]
    exact dayList_ne_empty w s.events _ _ (by decide)
  · rw [← dayList_eq_daySummary]
    exact dayList_ne_empty w s.events _ _ (by decide)

/-- C18, witness: `"salut"` submitted with a snapshot of two events today and an all-day
event tomorrow; the summaries are the joined entries, and a day without event gets the
none phrase. -/
theorem prompt_day_summaries_never_empty_witness :
    (daySummary (demoWorld .throws .ok) briefedState.events "2025-02-28"
        "aucun événement aujourd’hui" ≠ "" ∧
     daySummary (demoWorld .throws .ok) briefedState.events "2025-03-01"
        "aucun événement demain" ≠ "") ∧
    daySummary (demoWorld .throws .ok) briefedState.events "2025-02-28"
        "aucun événement aujourd’hui" = "09:30 → Réunion; 18:00 → Karaté" ∧
    daySummary (demoWorld .throws .ok) briefedState.events "2025-03-01"
        "aucun événement demain" = " → Congé" ∧
    daySummary (demoWorld .throws .ok) briefedState.events "2025-03-02"
        "aucun événement demain" = "aucun événement demain" :=
  ⟨(prompt_day_summaries_never_empty (demoWorld .throws .ok) (some "salut") briefedState
      ⟨'s', by decide, by decide⟩ (by decide)).2, by decide, by decide, by decide⟩

/-! ## Clock: claim C19 -/

/-- A number below one hundred is padded to two digits. -/
theorem pad_two_digits : ∀ n < 100, twoDigits (pad n).data = true := by decide

/-- A decimal digit is written with a digit character. -/
theorem digitChar_digit : ∀ d < 10, isAsciiDigit (Nat.digitChar d) = true := by decide

/-- The decimal text of a number from 1000 to 9999. -/
theorem toDigits_four (n : Nat) (h1 : 1000 ≤ n) (h2 : n < 10000) :
    Nat.toDigits 10 n = [Nat.digitChar (n / 10 / 10 / 10 % 10), Nat.digitChar (n / 10 / 10 % 10),
      Nat.digitChar (n / 10 % 10), Nat.digitChar (n % 10)] := by
  obtain ⟨f, rfl⟩ : ∃ f, n = f + 3 := ⟨n - 3, by omega⟩
  have e1 : (f + 3) / 10 ≠ 0 := by omega
  have e2 : (f + 3) / 10 / 10 ≠ 0 := by omega
  have e3 : (f + 3) / 10 / 10 / 10 ≠ 0 := by omega
  have e4 : (f + 3) / 10 / 10 / 10 / 10 = 0 := by omega
  simp [Nat.toDigits, Nat.toDigitsCore, e1, e2, e3, e4]

/-- A number from 1000 to 9999 is written with four digits. -/
theorem year_four_digits (n : Nat) (h1 : 1000 ≤ n) (h2 : n < 10000) :
    fourDigits (toString n).data = true := by
  have : (toString n).data = Nat.toDigits 10 n := rfl
  rw [this, toDigits_four n h1 h2]
  simp [fourDigits, digitChar_digit, Nat.mod_lt]

/-- A text of two digits, spelled out. -/
theorem twoDigits_cases {cs : List Char} (h : twoDigits cs = true) :
    ∃ a b, cs = [a, b] ∧ isAsciiDigit a = true ∧ isAsciiDigit b = true := by
  match cs, h with
  | [a, b], h =>
    simp only [twoDigits, Bool.and_eq_true] at h
    exact ⟨a, b, rfl, h.1, h.2⟩

/-- A text of four digits, spelled out. -/
theorem fourDigits_cases {cs : List Char} (h : fourDigits cs = true) :
    ∃ a b c d, cs = [a, b, c, d] ∧ isAsciiDigit a = true ∧ isAsciiDigit b = true ∧
      isAsciiDigit c = true ∧ isAsciiDigit d = true := by
  match cs, h with
  | [a, b, c, d], h =>
    simp only [fourDigits, Bool.and_eq_true] at h
    exact ⟨a, b, c, d, rfl, h.1.1.1, h.1.1.2, h.1.2, h.2⟩

/-- C19, the code at the failing inputs. When the clock reads the year 999 or the year
10000, `digital(new Date())` is `999-01-01  00:00:00` or `10000-01-01  00:00:00`: the year
is written without padding and the self test `digitalFormat` of lines 522-526, which
requires four year digits, fails. On 28 February 2025 the test passes. -/
theorem digital_fails_own_format_test :
    digital { fullYear := 999, month := 0, date := 1, hours := 0, minutes := 0,
              seconds := 0 } = "999-01-01  00:00:00" ∧
    digitalFormat (digital { fullYear := 999, month := 0, date := 1, hours := 0,
                             minutes := 0, seconds := 0 }) = false ∧
    digital { fullYear := 10000, month := 0, date := 1, hours := 0, minutes := 0,
              seconds := 0 } = "10000-01-01  00:00:00" ∧
    digitalFormat (digital { fullYear := 10000, month := 0, date := 1, hours := 0,
                             minutes := 0, seconds := 0 }) = false ∧
    digitalFormat (digital { fullYear := 2025, month := 1, date := 28, hours := 9,
                             minutes := 5, seconds := 0 }) = true := by
  decide

/-- For every date whose full year has four digits (1000 to 9999), `digital(d)` passes the
self test: month, day, hour, minute and second are padded to two digits and the separator
is two spaces. -/
theorem digital_matches_clock_format (d : DateParts) (h1 : 1000 ≤ d.fullYear) (h2 : d.fullYear ≤ 9999) :
    digitalFormat (digital d) = true ∧
    ((digital d).data.drop 10).take 2 = [' ', ' '] := by
  obtain ⟨n, hn⟩ := Int.eq_ofNat_of_zero_le (show 0 ≤ d.fullYear by omega)
  have hy : (toString d.fullYear).data = (toString n).data := by rw [hn]; rfl
  obtain ⟨y1, y2, y3, y4, ey, hy1, hy2, hy3, hy4⟩ :=
    fourDigits_cases (year_four_digits n (by omega) (by omega))
  obtain ⟨m1, m2, em, hm1, hm2⟩ :=
    twoDigits_cases (pad_two_digits (d.month.val + 1) (by omega))
  obtain ⟨d1, d2, ed, hd1, hd2⟩ := twoDigits_cases (pad_two_digits d.date.val (by omega))
  obtain ⟨h1', h2', eh, hh1, hh2⟩ := twoDigits_cases (pad_two_digits d.hours.val (by omega))
  obtain ⟨n1, n2, en, hn1, hn2⟩ := twoDigits_cases (pad_two_digits d.minutes.val (by omega))
  obtain ⟨s1, s2, es, hs1, hs2⟩ := twoDigits_cases (pad_two_digits d.seconds.val (by omega))
  have hdata : (digital d).data =
      [y1, y2, y3, y4, '-', m1, m2, '-', d1, d2, ' ', ' ', h1', h2', ':', n1, n2, ':', s1, s2] := by
    simp only [digital, String.data_append, hy, ey, em, ed, eh, en, es]
    rfl
  constructor
  · unfold digitalFormat
    rw [hdata]
    simp [hy1, hy2, hy3, hy4, hm1, hm2, hd1, hd2, hh1, hh2, hn1, hn2, hs1, hs2, isJSWhitespace]
  · rw [hdata]
    rfl

/-- The clock text of 28 February 2025, 09:05:00, passes the self test. -/
theorem digital_matches_clock_format_witness :
    digitalFormat (digital { fullYear := 2025, month := 1, date := 28, hours := 9,
                             minutes := 5, seconds := 0 }) = true ∧
    ((digital { fullYear := 2025, month := 1, date := 28, hours := 9, minutes := 5,
                seconds := 0 }).data.drop 10).take 2 = [' ', ' '] :=
  digital_matches_clock_format
    { fullYear := 2025, month := 1, date := 28, hours := 9, minutes := 5, seconds := 0 }
    (by decide) (by decide)

/-! ## Voice channel: claim C20 -/

/-- The messages an accepted submit appends: the user message, then assistant messages
that depend neither on the transcript nor on the input field. -/
theorem handleSend_shape (w : World) (t : String) (s : State)
    (hb : isBlank t = false) :
    ∃ rest : List Message, (∀ m ∈ rest, m.sender = .assistant) ∧
      ∀ (before : List Message) (field : String),
        (handleSend w (some t) { s with messages := before, input := field }).1.messages =
          before ++ { sender := .user, text := t } :: rest := by
  have hu : ∀ field : String, userText (some t) field = t := fun _ => rfl
  unfold handleSend
  simp only [hu, hb, Bool.false_eq_true, if_false]
  by_cases hk : s.apiKey.data.isEmpty = true
  · simp only [hk, if_true]
    exact ⟨[noKeyNotice], by simp [noKeyNotice], fun _ _ => by simp⟩
  · simp only [hk, if_false]
    cases w.modelResponse with
    | throws => exact ⟨[], by simp, fun _ _ => by simp⟩
    | undecodable => exact ⟨[], by simp, fun _ _ => by simp⟩
    | body data =>
      simp only []
      cases botReplyOf data with
      | none => exact ⟨[], by simp, fun _ _ => by simp⟩
      | some reply =>
        simp only []
        cases classify w.JSONparse reply with
        | FreeText x =>
          exact ⟨[{ sender := .assistant, text := reply }], by simp, fun _ _ => by simp⟩
        | CalendarAction a b c =>
          exact ⟨[announcement w a b c, confirmation], by simp [announcement, confirmation],
            fun _ _ => by simp [(addGoogleEvent_frame w _ _ _ _).1]⟩

/-- C20. A non-blank utterance recognised by the voice channel is recorded twice: the
`onresult` handler appends a User message with the recognised text and then calls
`handleSend`, which appends a second one, so the transcript grows by two identical User
messages before any assistant message; the same utterance submitted by text adds one,
followed by the same assistant messages. -/
theorem voice_utterance_recorded_twice (w : World) (transcript : String) (s : State)
    (hb : ∃ c ∈ transcript.data, isJSWhitespace c = false) :
    ∃ rest : List Message, (∀ m ∈ rest, m.sender = .assistant) ∧
      (onresult w transcript s).1.messages =
        s.messages ++ { sender := .user, text := transcript } ::
          { sender := .user, text := transcript } :: rest ∧
      (handleSend w (some transcript) s).1.messages =
        s.messages ++ { sender := .user, text := transcript } :: rest := by
  have hb2 : isBlank transcript = false := by
    rcases hb with ⟨c, hc, hw⟩
    cases hq : isBlank transcript with
    | false => rfl
    | true =>
      have := (isBlank_iff _).1 hq c hc
      rw [this] at hw
      cases hw
  obtain ⟨rest, hall, hshape⟩ := handleSend_shape w transcript s hb2
  refine ⟨rest, hall, ?_, ?_⟩
  · have h := hshape (s.messages ++ [{ sender := .user, text := transcript }]) transcript
    unfold onresult
    simp only [List.append_assoc, List.singleton_append] at h ⊢
    exact h
  · exact hshape s.messages s.input

/-- C20, witness: `"salut"` heard in the starting state, the model answering
`Bonjour !`. -/
theorem voice_utterance_recorded_twice_witness :
    ∃ rest : List Message, (∀ m ∈ rest, m.sender = .assistant) ∧
      (onresult (demoWorld (.body (completionBody "Bonjour !")) .ok) "salut"
          keyOnlyState).1.messages =
        keyOnlyState.messages ++ { sender := .user, text := "salut" } ::
          { sender := .user, text := "salut" } :: rest ∧
      (handleSend (demoWorld (.body (completionBody "Bonjour !")) .ok) (some "salut")
          keyOnlyState).1.messages =
        keyOnlyState.messages ++ { sender := .user, text := "salut" } :: rest :=
  voice_utterance_recorded_twice (demoWorld (.body (completionBody "Bonjour !")) .ok)
    "salut" keyOnlyState ⟨'s', by decide, by decide⟩

end Jarvis
